import Mathlib

/-!
Shallow embedding of the Vega scene-graph core (src/src/etna/command.cpp,
second translation unit: scene.cpp) and proofs about its documented
behaviour.

Modelling conventions:
* `float` scalars are modelled as exact rationals (`ℚ`).  All concrete
  inputs appearing in the claims (`-1`, `0`, `1`, `2`, products thereof,
  and `min`/`max` folds) are computed exactly by IEEE binary32, so the
  rational model agrees with the C++ on them.
* `cos`, `sin` and `inversesqrt` (used by `glm::rotate` / `glm::normalize`)
  have no computable exact counterpart on `ℚ`; the development is
  parametrised by a `TrigModel` providing them.  Theorems that evaluate a
  rotation only ever need the exact values `cos 0 = 1`, `sin 0 = 0`,
  `inversesqrt 1 = 1`, which hold for binary32.
* Pointers are modelled by `ID` values: every object carries the
  identifier the code assigns at construction, and pointer dereference
  becomes lookup by identifier.  The allocator\'s `static std::atomic_int`
  wraps modulo 2^32 (atomic signed arithmetic is defined to wrap), so the
  counter state is the 32-bit pattern and identifiers carry its signed
  value.
* `MaterialManager::m_materials` is a `std::unordered_map`; the C++
  standard leaves its iteration order unspecified.  The state stores the
  materials in creation order and every query that iterates the map takes
  an explicit `order : List Nat` argument ranging over the permutations of
  the stored entries; any behaviour of the real container is one of these
  orders.
-/

/-- Scalar type of the embedding: `float` modelled as exact rationals. -/
abbrev Flt := ℚ

/-- Float3 from the scene header: a triple of scalars. -/
structure Float3 where
  x : Flt
  y : Flt
  z : Flt
deriving DecidableEq, Repr

/-- Column vector of four scalars (`glm::vec4`). -/
structure Vec4 where
  x : Flt
  y : Flt
  z : Flt
  w : Flt
deriving DecidableEq, Repr

/-- Scalar multiple of a `glm::vec4`. -/
def Vec4.smul (a : Flt) (v : Vec4) : Vec4 :=
  ⟨a * v.x, a * v.y, a * v.z, a * v.w⟩

/-- Componentwise sum of two `glm::vec4`. -/
def Vec4.add (u v : Vec4) : Vec4 :=
  ⟨u.x + v.x, u.y + v.y, u.z + v.z, u.w + v.w⟩

/-- Column-major 4x4 matrix (`glm::mat4`): four column vectors. -/
structure Mat4 where
  c0 : Vec4
  c1 : Vec4
  c2 : Vec4
  c3 : Vec4
deriving DecidableEq, Repr

/-- Matrix-vector product, as in glm: `m[0]*v.x + m[1]*v.y + m[2]*v.z + m[3]*v.w`. -/
def Mat4.mulVec (m : Mat4) (v : Vec4) : Vec4 :=
  (Vec4.smul v.x m.c0).add ((Vec4.smul v.y m.c1).add ((Vec4.smul v.z m.c2).add (Vec4.smul v.w m.c3)))

/-- Matrix product, as in glm: column `i` of `a * b` is `a * b[i]`. -/
def Mat4.mul (a b : Mat4) : Mat4 :=
  ⟨a.mulVec b.c0, a.mulVec b.c1, a.mulVec b.c2, a.mulVec b.c3⟩

/-- Identity matrix, `glm::identity<glm::mat4>()`. -/
def IdMat : Mat4 :=
  ⟨⟨1, 0, 0, 0⟩, ⟨0, 1, 0, 0⟩, ⟨0, 0, 1, 0⟩, ⟨0, 0, 0, 1⟩⟩

/-- Translation matrix `glm::translate(amount)`: identity with the offset in
the fourth column (`TranslateNode::ApplyTransform`, command.cpp:714). -/
def TranslateMat (v : Float3) : Mat4 :=
  ⟨⟨1, 0, 0, 0⟩, ⟨0, 1, 0, 0⟩, ⟨0, 0, 1, 0⟩, ⟨v.x, v.y, v.z, 1⟩⟩

/-- Scale matrix `glm::scale(glm::vec3{f, f, f})`: the diagonal holds the
vector's components (`ScaleNode::ApplyTransform`, command.cpp:778). -/
def ScaleMat (v : Float3) : Mat4 :=
  ⟨⟨v.x, 0, 0, 0⟩, ⟨0, v.y, 0, 0⟩, ⟨0, 0, v.z, 0⟩, ⟨0, 0, 0, 1⟩⟩

/-- Parameters for the transcendental functions glm uses: `cos`/`sin` for
`glm::rotate` and `inversesqrt` for `glm::normalize`.  They have no exact
computable counterpart on `ℚ`, so the embedding abstracts them; theorems
that need concrete values state the binary32-exact facts `cos 0 = 1`,
`sin 0 = 0`, `inversesqrt 1 = 1` as hypotheses. -/
structure TrigModel where
  cos : Flt → Flt
  sin : Flt → Flt
  invSqrt : Flt → Flt

/-- Dot product of two 3-vectors, as in glm. -/
def Dot3 (u v : Float3) : Flt :=
  u.x * v.x + u.y * v.y + u.z * v.z

/-- Vector normalisation, as in glm: `v * inversesqrt(dot(v, v))`. -/
def Normalize3 (tm : TrigModel) (v : Float3) : Float3 :=
  let k := tm.invSqrt (Dot3 v v)
  ⟨k * v.x, k * v.y, k * v.z⟩

/-- Axis-angle rotation matrix `glm::rotate(angle, axis)` (glm's
`matrix_transform.inl` applied to the identity): `c = cos angle`,
`s = sin angle`, the axis normalised, `temp = (1 - c) * axis`. -/
def RotateMat (tm : TrigModel) (angle : Flt) (v : Float3) : Mat4 :=
  let c := tm.cos angle
  let s := tm.sin angle
  let a := Normalize3 tm v
  let tx := (1 - c) * a.x
  let ty := (1 - c) * a.y
  let tz := (1 - c) * a.z
  ⟨⟨c + tx * a.x, tx * a.y + s * a.z, tx * a.z - s * a.y, 0⟩,
   ⟨ty * a.x - s * a.z, c + ty * a.y, ty * a.z + s * a.x, 0⟩,
   ⟨tz * a.x + s * a.y, tz * a.y - s * a.x, c + tz * a.z, 0⟩,
   ⟨0, 0, 0, 1⟩⟩

/-- Axis-aligned bounding box: min and max corner (scene header). -/
structure AABB where
  min : Float3
  max : Float3
deriving DecidableEq, Repr

/-- Largest finite binary32 value, `FLT_MAX` = 2^128 - 2^104. -/
def FLT_MAX : Flt := 340282346638528859811704183484516925440

/-- Smallest positive normal binary32 value, `FLT_MIN` = 2^(-126).  Note the
code initialises the running *maximum* with this small positive number
(`Scene::ComputeAxisAlignedBoundingBox`, command.cpp:597). -/
def FLT_MIN : Flt := 1 / 85070591730234615865843651857942052864

/-- Identifier issued by the global allocator (`struct ID` in the scene
header): wraps the `int` counter value, modelled as the signed
(two\'s-complement) value of the 32-bit pattern. -/
structure ID where
  value : Int
deriving DecidableEq, Repr

/-- Signed reinterpretation of a 32-bit pattern: values at or above 2^31
are negative. -/
def ToSigned (n : Nat) : Int :=
  if n < 2147483648 then (n : Int) else (n : Int) - 4294967296

/-- Allocator `GetUniqueID` (command.cpp:390-395): a `static
std::atomic_int` counter is incremented and the new counter value is
returned.  Atomic signed increment is defined to wrap modulo 2^32, so the
counter is modelled as the 32-bit pattern: from pattern `n` the new
pattern is `(n + 1) % 2^32` and the issued identifier carries its signed
value; after 2^31 allocations the issued value becomes negative, and
after 2^32 it repeats. -/
def GetUniqueID (n : Nat) : ID × Nat :=
  let r := (n + 1) % 4294967296
  (⟨ToSigned r⟩, r)

/-- Property value: the closed variant {int, float, string} of the
dictionary (scene header). -/
inductive Value where
  | intV (i : Int)
  | floatV (q : Flt)
  | stringV (s : String)
deriving DecidableEq, Repr

/-- Backing store of the property dictionary: key/value entries. -/
abbrev Dictionary := List (String × Value)

/-- Map update as done by `insert_or_assign`: replace the value at an
existing key, otherwise add the entry. -/
def InsertOrAssign : Dictionary → String → Value → Dictionary
  | [], k, v => [(k, v)]
  | (k', v') :: rest, k, v =>
    if k' = k then (k, v) :: rest else (k', v') :: InsertOrAssign rest k v

/-- Map erase as done by `erase(key)`: drop the entry with the key. -/
def EraseKey (d : Dictionary) (k : String) : Dictionary :=
  d.filter (fun e => decide (e.fst ≠ k))

/-- Lazily allocated property dictionary of an `Object` (`m_dictionary`):
`none` models the null pointer before first use. -/
abbrev Props := Option Dictionary

/-- Object::SetProperty (command.cpp:794-800): allocate the dictionary on
first use, then `insert_or_assign`. -/
def SetProperty (d : Props) (k : String) (v : Value) : Props :=
  match d with
  | none => some [(k, v)]
  | some m => some (InsertOrAssign m k v)

/-- Object::RemoveProperty (command.cpp:802-807): erase the key if the
dictionary exists, otherwise do nothing. -/
def RemoveProperty (d : Props) (k : String) : Props :=
  match d with
  | none => none
  | some m => some (EraseKey m k)

/-- Object::HasProperties (command.cpp:789-792): true iff the dictionary
exists and is non-empty. -/
def HasProperties (d : Props) : Bool :=
  match d with
  | none => false
  | some m => !m.isEmpty

/-- Value type tags of the reflection layer (scene header / `to_string`,
command.cpp:876-888). -/
inductive ValueType where
  | nullT
  | floatT
  | intT
  | referenceT
  | stringT
  | float3T
deriving DecidableEq, Repr

/-- Typed handle returned by `GetField`: the C++ `ValueRef` wraps a typed
pointer to the member; the model carries the member's current value
together with its type. -/
inductive ValueRef where
  | float3R (v : Float3)
  | floatR (x : Flt)
  | intR (n : Int)
  | stringR (s : String)
  | referenceR (id : ID)
deriving DecidableEq, Repr

/-- Reflection field descriptor (`Field` in the scene header, renamed here
because Mathlib takes the name): key, label, value type and editable flag.
The always-null third member of the C++ aggregate is omitted. -/
structure FieldInfo where
  key : String
  label : String
  valueType : ValueType
  editable : Bool
deriving DecidableEq, Repr

/-- Per-kind reflection table (`Metadata` in the scene header): class tag,
display label and field list.  The always-null third member is omitted. -/
structure Metadata where
  objectClass : String
  objectLabel : String
  fields : List FieldInfo
deriving DecidableEq, Repr

/-- Vertex buffer descriptor of a mesh (`MeshVertices`): attribute string,
per-vertex size, count and total byte size. -/
structure MeshVertices where
  attributes : String
  vertexSize : Int
  count : Int
  size : Int
deriving DecidableEq, Repr

/-- Index buffer descriptor of a mesh (`MeshIndices`): index type string,
per-index size, count and total byte size. -/
structure MeshIndices where
  indexType : String
  indexSize : Int
  count : Int
  size : Int
deriving DecidableEq, Repr

/-- Mesh (scene header / command.cpp:466-483): identifier, optional
properties, immutable bounding box and buffer descriptors. -/
structure Mesh where
  id : ID
  props : Props
  aabb : AABB
  vertices : MeshVertices
  indices : MeshIndices
deriving DecidableEq, Repr

/-- Mesh::GetField (command.cpp:495-515): the chain of name comparisons,
returning a typed handle for the known names and `none` otherwise. -/
def Mesh.GetField (m : Mesh) (name : String) : Option ValueRef :=
  if name = "aabb.min" then some (.float3R m.aabb.min)
  else if name = "aabb.max" then some (.float3R m.aabb.max)
  else if name = "vertex.attributes" then some (.stringR m.vertices.attributes)
  else if name = "vertex.size" then some (.intR m.vertices.vertexSize)
  else if name = "vertex.count" then some (.intR m.vertices.count)
  else if name = "index.type" then some (.stringR m.indices.indexType)
  else if name = "index.size" then some (.intR m.indices.indexSize)
  else if name = "index.count" then some (.intR m.indices.count)
  else none

/-- Mesh::metadata (command.cpp:517-529). -/
def MeshMetadata : Metadata :=
  ⟨"object.mesh", "Mesh",
   [⟨"aabb.min", "Min", .float3T, false⟩,
    ⟨"aabb.max", "Max", .float3T, false⟩,
    ⟨"vertex.attributes", "Vertex Attributes", .stringT, false⟩,
    ⟨"vertex.size", "Vertex Size", .intT, false⟩,
    ⟨"vertex.count", "Vertex Count", .intT, false⟩,
    ⟨"index.type", "Index Type", .stringT, false⟩,
    ⟨"index.size", "Index Size", .intT, false⟩,
    ⟨"index.count", "Index Count", .intT, false⟩]⟩

/-- RootNode::metadata (command.cpp:626). -/
def RootMetadata : Metadata := ⟨"root.node", "Root", []⟩

/-- TranslateNode::metadata (command.cpp:690-695). -/
def TranslateMetadata : Metadata :=
  ⟨"translate.node", "Translate",
   [⟨"translate.amount", "Amount", .float3T, true⟩]⟩

/-- RotateNode::metadata (command.cpp:740-746). -/
def RotateMetadata : Metadata :=
  ⟨"rotate.node", "Rotate",
   [⟨"rotate.axis", "Axis", .float3T, true⟩,
    ⟨"rotate.angle", "Angle", .floatT, true⟩]⟩

/-- ScaleNode::metadata (command.cpp:782-787). -/
def ScaleMetadata : Metadata :=
  ⟨"scale.node", "Scale",
   [⟨"scale.factor", "Factor", .floatT, true⟩]⟩

/-- MeshNode::metadata (command.cpp:666-672). -/
def MeshNodeMetadata : Metadata :=
  ⟨"mesh.node", "Mesh",
   [⟨"mesh", "Mesh", .referenceT, false⟩,
    ⟨"material.instance", "Material Instance", .referenceT, false⟩]⟩

/-- Polymorphic node hierarchy (scene header): Root, Translate, Rotate and
Scale own ordered child lists; MeshNode is a leaf holding non-owning
references (modelled as identifiers) to its Mesh and MaterialInstance plus
its most recently computed world transform `m_transform`. -/
inductive Node where
  | root (id : ID) (props : Props) (children : List Node)
  | translate (id : ID) (props : Props) (amount : Float3) (children : List Node)
  | rotate (id : ID) (props : Props) (axis : Float3) (angle : Flt) (children : List Node)
  | scale (id : ID) (props : Props) (factor : Flt) (children : List Node)
  | mesh (id : ID) (props : Props) (meshId : ID) (materialInstanceId : ID) (transform : Mat4)

/-- Identifier of a node (`Object::GetID`). -/
def Node.GetID : Node → ID
  | .root i _ _ => i
  | .translate i _ _ _ => i
  | .rotate i _ _ _ _ => i
  | .scale i _ _ _ => i
  | .mesh i _ _ _ _ => i

/-- Child list of a node (`InternalNode::GetChildren`, command.cpp:556-559;
a MeshNode has no children). -/
def Node.GetChildren : Node → List Node
  | .root _ _ cs => cs
  | .translate _ _ _ cs => cs
  | .rotate _ _ _ _ cs => cs
  | .scale _ _ _ cs => cs
  | .mesh _ _ _ _ _ => []

/-- Replacement of a node's child list; `none` for a MeshNode, which owns
no children. -/
def Node.WithChildren : Node → List Node → Option Node
  | .root i p _, cs => some (.root i p cs)
  | .translate i p a _, cs => some (.translate i p a cs)
  | .rotate i p ax an _, cs => some (.rotate i p ax an cs)
  | .scale i p f _, cs => some (.scale i p f cs)
  | .mesh _ _ _ _ _, _ => none

mutual

/-- ApplyTransform of each node kind (command.cpp:638-643, 709-716,
748-755, 774-780, 674-677): Root forwards the incoming matrix unchanged to
every child; Translate/Rotate/Scale recurse with
`matrix * local` where the local matrix is rebuilt from the node's current
parameters; MeshNode overwrites `m_transform` with the incoming matrix. -/
def Node.ApplyTransform (tm : TrigModel) : Node → Mat4 → Node
  | .root i p cs, m => .root i p (Node.ApplyTransformList tm cs m)
  | .translate i p a cs, m =>
    .translate i p a (Node.ApplyTransformList tm cs (m.mul (TranslateMat a)))
  | .rotate i p ax an cs, m =>
    .rotate i p ax an (Node.ApplyTransformList tm cs (m.mul (RotateMat tm an ax)))
  | .scale i p f cs, m =>
    .scale i p f (Node.ApplyTransformList tm cs (m.mul (ScaleMat ⟨f, f, f⟩)))
  | .mesh i p mid iid _, m => .mesh i p mid iid m

/-- Recursion of `ApplyTransform` over a child list, in child-list order. -/
def Node.ApplyTransformList (tm : TrigModel) : List Node → Mat4 → List Node
  | [], _ => []
  | c :: cs, m => Node.ApplyTransform tm c m :: Node.ApplyTransformList tm cs m

end

/-- GetField of each node kind (command.cpp:621-624, 685-688, 730-738,
769-772, 656-664): name comparison chains; Root recognises no name. -/
def Node.GetField : Node → String → Option ValueRef
  | .root _ _ _, _ => none
  | .translate _ _ a _, name =>
    if name = "translate.amount" then some (.float3R a) else none
  | .rotate _ _ ax an _, name =>
    if name = "rotate.axis" then some (.float3R ax)
    else if name = "rotate.angle" then some (.floatR an)
    else none
  | .scale _ _ f _, name =>
    if name = "scale.factor" then some (.floatR f) else none
  | .mesh _ _ mid iid _, name =>
    if name = "mesh" then some (.referenceR mid)
    else if name = "material.instance" then some (.referenceR iid)
    else none

/-- Reflection table attached to a node's kind (the static `metadata`
members). -/
def Node.MetadataOf : Node → Metadata
  | .root _ _ _ => RootMetadata
  | .translate _ _ _ _ => TranslateMetadata
  | .rotate _ _ _ _ _ => RotateMetadata
  | .scale _ _ _ _ => ScaleMetadata
  | .mesh _ _ _ _ _ => MeshNodeMetadata

mutual

/-- Identifiers of the MeshNodes of a subtree, in depth-first child-list
order. -/
def Node.MeshNodeIds : Node → List ID
  | .root _ _ cs => Node.MeshNodeIdsList cs
  | .translate _ _ _ cs => Node.MeshNodeIdsList cs
  | .rotate _ _ _ _ cs => Node.MeshNodeIdsList cs
  | .scale _ _ _ cs => Node.MeshNodeIdsList cs
  | .mesh i _ _ _ _ => [i]

/-- MeshNode identifiers of a forest, in order. -/
def Node.MeshNodeIdsList : List Node → List ID
  | [] => []
  | c :: cs => Node.MeshNodeIds c ++ Node.MeshNodeIdsList cs

end

mutual

/-- Dereference of a registered MeshNode pointer: find the MeshNode with
the given identifier in the tree and read the pair
`(GetMeshPtr(), GetTransformPtr())` that `Scene::ComputeDrawList` stores
(command.cpp:579). -/
def Node.FindMeshNode : Node → ID → Option (ID × Mat4)
  | .root _ _ cs, t => Node.FindMeshNodeList cs t
  | .translate _ _ _ cs, t => Node.FindMeshNodeList cs t
  | .rotate _ _ _ _ cs, t => Node.FindMeshNodeList cs t
  | .scale _ _ _ cs, t => Node.FindMeshNodeList cs t
  | .mesh i _ mid _ tr, t => if i = t then some (mid, tr) else none

/-- Search of a forest for a MeshNode identifier. -/
def Node.FindMeshNodeList : List Node → ID → Option (ID × Mat4)
  | [], _ => none
  | c :: cs, t =>
    match Node.FindMeshNode c t with
    | some r => some r
    | none => Node.FindMeshNodeList cs t

end

mutual

/-- Erasure of the mutable world transforms: every MeshNode's `m_transform`
is replaced by the identity, everything else is kept.  Two trees with equal
erasures agree on identifiers, properties, parameters and child structure. -/
def Node.StripTransforms : Node → Node
  | .root i p cs => .root i p (Node.StripTransformsList cs)
  | .translate i p a cs => .translate i p a (Node.StripTransformsList cs)
  | .rotate i p ax an cs => .rotate i p ax an (Node.StripTransformsList cs)
  | .scale i p f cs => .scale i p f (Node.StripTransformsList cs)
  | .mesh i p mid iid _ => .mesh i p mid iid IdMat

/-- Erasure of world transforms over a forest. -/
def Node.StripTransformsList : List Node → List Node
  | [] => []
  | c :: cs => Node.StripTransforms c :: Node.StripTransformsList cs

end

/-- MaterialInstance (scene header / command.cpp:860-874): identifier,
optional properties, and the ordered non-owning list of MeshNode
references (`m_mesh_nodes`), modelled as the referenced nodes'
identifiers.  `AddMeshNodePtr` appends (command.cpp:871-874). -/
structure MaterialInstance where
  id : ID
  props : Props
  meshNodes : List ID
deriving DecidableEq, Repr

/-- Material (scene header / command.cpp:838-848): identifier, optional
properties, and the owned ordered sequence `m_instances` of its
MaterialInstances; `CreateMaterialInstance` appends and
`GetMaterialInstances` returns them in that creation order. -/
structure Material where
  id : ID
  props : Props
  instances : List MaterialInstance
deriving DecidableEq, Repr

/-- Scene (scene header / command.cpp:561-566): the owned root node, the
material manager's map contents in creation order, the mesh manager's map
contents in creation order, and the global allocator counter.  The
iteration order of the managers' `std::unordered_map`s is supplied
separately to the queries. -/
structure Scene where
  root : Node
  materials : List Material
  meshes : List Mesh
  counter : Nat

/-- Scene::Scene (command.cpp:561-566): a fresh root node with a fresh
identifier, empty managers.  The global counter is taken to start at 0, so
the root receives identifier 1. -/
def Scene0 : Scene :=
  let (i, c) := GetUniqueID 0
  { root := .root i none [], materials := [], meshes := [], counter := c }

/-- Update of the element at an index of a list, identity when out of
range; used to modify one material or one instance in place. -/
def ListModify : List α → Nat → (α → α) → List α
  | [], _, _ => []
  | a :: t, 0, f => f a :: t
  | a :: t, n + 1, f => a :: ListModify t n f

/-- Appending a new child to the node addressed by a path of child
indices (the caller-held pointer of the C++ builder API); `none` when the
path does not address an internal node, which cannot arise through the
C++ API. -/
def Node.AddChildAt : List Nat → Node → Node → Option Node
  | [], n, c => n.WithChildren (n.GetChildren ++ [c])
  | i :: rest, n, c =>
    match n.GetChildren[i]? with
    | none => none
    | some ch =>
      match Node.AddChildAt rest ch c with
      | none => none
      | some ch' => n.WithChildren (ListModify n.GetChildren i (fun _ => ch'))

/-- Construction operations of the public Scene API.  Targets that the C++
passes as pointers are addressed structurally: a node by its path of child
indices from the root, a material / instance / mesh by its position in
creation order. -/
inductive Op where
  | createMaterial
  | createMesh (aabb : AABB) (vertices : MeshVertices) (indices : MeshIndices)
  | createMaterialInstance (matIdx : Nat)
  | addTranslateNode (path : List Nat) (x y z : Flt)
  | addRotateNode (path : List Nat) (x y z : Flt) (angle : Flt)
  | addScaleNode (path : List Nat) (factor : Flt)
  | addMeshNode (path : List Nat) (meshIdx matIdx instIdx : Nat)

/-- Storage of a new material as `m_materials[id] = MakeUnique<Material>(id)`
does (command.cpp:445-446): `operator[]` followed by assignment replaces
the entry at an existing key — destroying that material and its owned
instances — and otherwise adds a new entry.  Key reuse can only happen
once the 32-bit allocator counter has wrapped. -/
def StoreMaterial (mats : List Material) (m : Material) : List Material :=
  if mats.any (fun x => x.id = m.id) then mats.map (fun x => if x.id = m.id then m else x)
  else mats ++ [m]

/-- Storage of a new mesh as `m_meshes[id] = MakeUnique<Mesh>(...)` does
(command.cpp:471): replace at an existing key, otherwise add. -/
def StoreMesh (meshes : List Mesh) (m : Mesh) : List Mesh :=
  if meshes.any (fun x => x.id = m.id) then meshes.map (fun x => if x.id = m.id then m else x)
  else meshes ++ [m]

/-- Instance lookup by material position and instance position. -/
def Scene.GetInstance (s : Scene) (matIdx instIdx : Nat) : Option MaterialInstance :=
  match s.materials[matIdx]? with
  | none => none
  | some m => m.instances[instIdx]?

/-- One construction step.  Returns the new scene together with the list
of identifiers the step drew from `GetUniqueID` (empty when the step's
target is invalid, in which case the C++ call could not have been made and
the model leaves the scene unchanged):

* `createMaterial`: MaterialManager::CreateMaterial (command.cpp:443-448).
* `createMesh`: MeshManager::CreateMesh (command.cpp:468-473).
* `createMaterialInstance`: Material::CreateMaterialInstance
  (command.cpp:838-842), appending an instance with no references.
* `addTranslateNode` / `addRotateNode` / `addScaleNode`:
  InternalNode::Add*Node (command.cpp:531-547), appending a child with a
  fresh identifier.
* `addMeshNode`: InternalNode::AddMeshNode (command.cpp:549-554) together
  with MeshNode::MeshNode (command.cpp:679-683), which registers the new
  node in its MaterialInstance via AddMeshNodePtr (command.cpp:871-874). -/
def Scene.ApplyOp (s : Scene) : Op → Scene × List ID
  | .createMaterial =>
    let (i, c) := GetUniqueID s.counter
    ({ s with materials := StoreMaterial s.materials ⟨i, none, []⟩, counter := c }, [i])
  | .createMesh box v ix =>
    let (i, c) := GetUniqueID s.counter
    ({ s with meshes := StoreMesh s.meshes ⟨i, none, box, v, ix⟩, counter := c }, [i])
  | .createMaterialInstance matIdx =>
    if matIdx < s.materials.length then
      let (i, c) := GetUniqueID s.counter
      ({ s with
         materials := ListModify s.materials matIdx
           (fun m => { m with instances := m.instances ++ [⟨i, none, []⟩] }),
         counter := c }, [i])
    else (s, [])
  | .addTranslateNode path x y z =>
    let (i, c) := GetUniqueID s.counter
    match Node.AddChildAt path s.root (.translate i none ⟨x, y, z⟩ []) with
    | some r => ({ s with root := r, counter := c }, [i])
    | none => (s, [])
  | .addRotateNode path x y z angle =>
    let (i, c) := GetUniqueID s.counter
    match Node.AddChildAt path s.root (.rotate i none ⟨x, y, z⟩ angle []) with
    | some r => ({ s with root := r, counter := c }, [i])
    | none => (s, [])
  | .addScaleNode path factor =>
    let (i, c) := GetUniqueID s.counter
    match Node.AddChildAt path s.root (.scale i none factor []) with
    | some r => ({ s with root := r, counter := c }, [i])
    | none => (s, [])
  | .addMeshNode path meshIdx matIdx instIdx =>
    match s.meshes[meshIdx]?, s.GetInstance matIdx instIdx with
    | some mesh, some inst =>
      let (i, c) := GetUniqueID s.counter
      let register : Material → Material := fun m =>
        let upd : MaterialInstance → MaterialInstance := fun ist =>
          { ist with meshNodes := ist.meshNodes ++ [i] }
        { m with instances := ListModify m.instances instIdx upd }
      match Node.AddChildAt path s.root (.mesh i none mesh.id inst.id IdMat) with
      | some r =>
        ({ s with
           root := r,
           materials := ListModify s.materials matIdx register,
           counter := c }, [i])
      | none => (s, [])
    | _, _ => (s, [])

/-- Replay of a construction history. -/
def Scene.ApplyOps (s : Scene) : List Op → Scene
  | [] => s
  | op :: ops => Scene.ApplyOps (s.ApplyOp op).1 ops

/-- Identifiers issued while replaying a construction history, in issue
order. -/
def Scene.IdTrace (s : Scene) : List Op → List ID
  | [] => []
  | op :: ops => (s.ApplyOp op).2 ++ Scene.IdTrace (s.ApplyOp op).1 ops

/-- Materials as returned by `MaterialManager::GetMaterials`
(command.cpp:450-454): the entries of the `std::unordered_map` in its
iteration order.  The order is implementation-defined, so it is supplied
as the list of creation-order positions in which the map hands out the
entries. -/
def SelectOrder (order : List Nat) (mats : List Material) : List Material :=
  order.filterMap (fun i => mats[i]?)

/-- Admissible iteration orders of the material map: every stored material
is handed out exactly once. -/
def IsValidOrder (order : List Nat) (n : Nat) : Prop :=
  List.Perm order (List.range n)

/-- Entry of the draw list (scene header `DrawList`): the pair
`(mesh pointer, world-transform pointer)` a MeshNode provides, modelled as
the mesh identifier and the transform value. -/
abbrev DrawEntry := ID × Mat4

/-- Body of the innermost `ComputeDrawList` loop (command.cpp:578-580):
dereference the registered MeshNode and push its entry. -/
def PushEntry (root2 : Node) (acc : List DrawEntry) (nid : ID) : List DrawEntry :=
  match root2.FindMeshNode nid with
  | some e => acc ++ [e]
  | none => acc

/-- Scene::ComputeDrawList (command.cpp:568-585), translated loop for
loop: first `ApplyTransform(identity)` on the root, then iterate the
material map in its iteration order, each material's instances in
creation order, each instance's registered MeshNodes in reference order,
appending one entry per MeshNode.  The returned scene carries the updated
world transforms (the C++ method mutates them in place). -/
def Scene.ComputeDrawList (tm : TrigModel) (order : List Nat) (s : Scene) :
    List DrawEntry × Scene :=
  let root2 := s.root.ApplyTransform tm IdMat
  let dl := List.foldl
    (fun acc material =>
      List.foldl
        (fun acc inst => List.foldl (PushEntry root2) acc inst.meshNodes)
        acc material.instances)
    [] (SelectOrder order s.materials)
  (dl, { s with root := root2 })

/-- Draw entries contributed by one registered MaterialInstance, in
reference order. -/
def InstanceEntries (root2 : Node) (inst : MaterialInstance) : List DrawEntry :=
  inst.meshNodes.filterMap (fun nid => root2.FindMeshNode nid)

/-- Draw entries contributed by one Material: its instances in creation
order. -/
def MaterialEntries (root2 : Node) (m : Material) : List DrawEntry :=
  m.instances.flatMap (InstanceEntries root2)

/-- Draw list as the specification words it, for a given iteration order
of the material map: refresh the transforms, then materials in that
order, instances in creation order, references in order, one entry per
registered MeshNode. -/
def SpecDrawList (tm : TrigModel) (order : List Nat) (s : Scene) : List DrawEntry :=
  let root2 := s.root.ApplyTransform tm IdMat
  (SelectOrder order s.materials).flatMap (MaterialEntries root2)

/-- Draw list exactly as the specification claims it: materials in
creation order (the order the manager created them in), instances in
creation order, references in order.  The code does not implement this;
it iterates the material map in its unspecified order. -/
def SpecDrawListCreationOrder (tm : TrigModel) (s : Scene) : List DrawEntry :=
  let root2 := s.root.ApplyTransform tm IdMat
  s.materials.flatMap (MaterialEntries root2)

/-- Mesh lookup by identifier, the model of dereferencing the stored
`MeshPtr` (owned by the MeshManager, keyed by identifier). -/
def LookupMesh (meshes : List Mesh) (i : ID) : Option Mesh :=
  meshes.find? (fun m => m.id = i)

/-- Binary minimum as `std::min`: the second argument when it is smaller,
otherwise the first. -/
def MinF (a b : Flt) : Flt := if b < a then b else a

/-- Binary maximum as `std::max`: the second argument when it is larger,
otherwise the first. -/
def MaxF (a b : Flt) : Flt := if a < b then b else a

/-- Fold of one mesh's two transformed box corners into the running box
(`Scene::ComputeAxisAlignedBoundingBox` body, command.cpp:602-613): only
the local min corner and the local max corner are transformed, then each
coordinate of the running min/max is folded with both, as
`std::min({out, a, b})` / `std::max({out, a, b})` do. -/
def FoldCorners (out : AABB) (model : Mat4) (box : AABB) : AABB :=
  let va := model.mulVec ⟨box.min.x, box.min.y, box.min.z, 1⟩
  let vb := model.mulVec ⟨box.max.x, box.max.y, box.max.z, 1⟩
  ⟨⟨MinF (MinF out.min.x va.x) vb.x,
    MinF (MinF out.min.y va.y) vb.y,
    MinF (MinF out.min.z va.z) vb.z⟩,
   ⟨MaxF (MaxF out.max.x va.x) vb.x,
    MaxF (MaxF out.max.y va.y) vb.y,
    MaxF (MaxF out.max.z va.z) vb.z⟩⟩

/-- Sentinel box returned for a scene whose root has no children
(command.cpp:591-593). -/
def SentinelBox : AABB := ⟨⟨-1, -1, -1⟩, ⟨1, 1, 1⟩⟩

/-- Initial running box of the bounding-box fold (command.cpp:597): min
corners at `FLT_MAX`, max corners at `FLT_MIN`. -/
def StartBox : AABB := ⟨⟨FLT_MAX, FLT_MAX, FLT_MAX⟩, ⟨FLT_MIN, FLT_MIN, FLT_MIN⟩⟩

/-- Body of the innermost bounding-box loop (command.cpp:601-613):
dereference the registered MeshNode; if its mesh pointer is non-null,
transform the mesh's local min and max corners by the node's world
transform and fold them into the running box. -/
def FoldEntry (root2 : Node) (meshes : List Mesh) (out : AABB) (nid : ID) : AABB :=
  match root2.FindMeshNode nid with
  | none => out
  | some (mid, model) =>
    match LookupMesh meshes mid with
    | none => out
    | some mesh => FoldCorners out model mesh.aabb

/-- World transform and mesh-local box a registered MeshNode contributes
to the bounding-box fold, when its mesh pointer is non-null. -/
def BoxOf (root2 : Node) (meshes : List Mesh) (nid : ID) : Option (Mat4 × AABB) :=
  match root2.FindMeshNode nid with
  | none => none
  | some (mid, _model) =>
    match LookupMesh meshes mid with
    | none => none
    | some mesh => some (_model, mesh.aabb)

/-- Scene::ComputeAxisAlignedBoundingBox (command.cpp:587-619), translated
loop for loop: if the root has no children return the sentinel box;
otherwise refresh the transforms, then for every registered MeshNode whose
mesh pointer is non-null transform the mesh's local min and max corners by
the node's world transform and fold them into the running box.  The
returned scene carries the updated world transforms. -/
def Scene.ComputeAxisAlignedBoundingBox (tm : TrigModel) (order : List Nat) (s : Scene) :
    AABB × Scene :=
  if (s.root.GetChildren).isEmpty then (SentinelBox, s)
  else
    let root2 := s.root.ApplyTransform tm IdMat
    let out := List.foldl
      (fun out material =>
        List.foldl
          (fun out inst => List.foldl (FoldEntry root2 s.meshes) out inst.meshNodes)
          out material.instances)
      StartBox (SelectOrder order s.materials)
    (out, { s with root := root2 })

/-- Transform/box pairs the bounding-box loop folds, as the specification
words it: registered MeshNodes grouped by material and instance, each
contributing its world transform and its mesh's local box. -/
def SpecBoxList (tm : TrigModel) (order : List Nat) (s : Scene) : List (Mat4 × AABB) :=
  let root2 := s.root.ApplyTransform tm IdMat
  (SelectOrder order s.materials).flatMap (fun material =>
    material.instances.flatMap (fun inst =>
      inst.meshNodes.filterMap (BoxOf root2 s.meshes)))

/-- Trig model used to instantiate witnesses: every theorem that evaluates
a rotation only constrains the values at 0 (and `inversesqrt` at 1), which
this model provides. -/
def TmTriv : TrigModel :=
  ⟨fun _ => 1, fun _ => 0, fun _ => 1⟩

/-- References registered in one material: its instances in creation
order, each instance's references in reference order. -/
def MaterialRegistry (m : Material) : List ID :=
  m.instances.flatMap (fun i => i.meshNodes)

/-- All registered MeshNode references of the scene, grouped by material
(creation order) and instance (creation order), each group in reference
order. -/
def RegistryIds (s : Scene) : List ID :=
  s.materials.flatMap MaterialRegistry

/-- Structural invariant of scenes built through the public API: the
multiset of MeshNode references registered in the material graph equals
the multiset of MeshNodes in the tree (every MeshNode registers itself
with its MaterialInstance at construction and nothing ever unregisters). -/
def SceneInv (s : Scene) : Prop :=
  (RegistryIds s).Perm s.root.MeshNodeIds

/-- Bound maintained while the 32-bit allocator has not wrapped: every
stored material identifier is at most the counter, so a fresh identifier
can never collide with a stored key and `StoreMaterial` always adds a new
entry. -/
def MatIdsLe (s : Scene) : Prop :=
  ∀ m ∈ s.materials, m.id.value ≤ (s.counter : Int)

/-- Construction history of the counterexample scene for the draw-list
ordering claim: two materials, each with one instance and one MeshNode
under the root. -/
def CexOps : List Op :=
  [.createMaterial,
   .createMaterialInstance 0,
   .createMesh ⟨⟨0, 0, 0⟩, ⟨1, 1, 1⟩⟩ ⟨"a", 0, 0, 0⟩ ⟨"u16", 0, 0, 0⟩,
   .addMeshNode [] 0 0 0,
   .createMaterial,
   .createMaterialInstance 1,
   .createMesh ⟨⟨0, 0, 0⟩, ⟨2, 2, 2⟩⟩ ⟨"b", 0, 0, 0⟩ ⟨"u16", 0, 0, 0⟩,
   .addMeshNode [] 1 1 0]

/-- Counterexample scene: materials created in the order first, second;
the map may iterate them in the opposite order. -/
def SceneCex : Scene := Scene.ApplyOps Scene0 CexOps

/-- Construction history of the end-to-end bounding-box example of the
specification: `Root → Translate(0,0,0) → Rotate(axis=(0,0,1), angle=0) →
Scale(2) → MeshNode` with mesh-local box `{(-1,-1,-1),(1,1,1)}`. -/
def C6Ops : List Op :=
  [.createMesh ⟨⟨-1, -1, -1⟩, ⟨1, 1, 1⟩⟩ ⟨"pn", 24, 3, 72⟩ ⟨"u16", 2, 3, 6⟩,
   .createMaterial,
   .createMaterialInstance 0,
   .addTranslateNode [] 0 0 0,
   .addRotateNode [0] 0 0 1 0,
   .addScaleNode [0, 0] 2,
   .addMeshNode [0, 0, 0] 0 0 0]

/-- Scene of the end-to-end bounding-box example. -/
def SceneC6 : Scene := Scene.ApplyOps Scene0 C6Ops

/-- Construction history used by witnesses that need a non-trivial scene:
one material, one instance, one mesh, one MeshNode under the root. -/
def WitOps : List Op :=
  [.createMaterial,
   .createMaterialInstance 0,
   .createMesh ⟨⟨-1, -1, -1⟩, ⟨1, 1, 1⟩⟩ ⟨"p", 12, 3, 36⟩ ⟨"u32", 4, 3, 12⟩,
   .addMeshNode [] 0 0 0]

/-- Witness scene with one registered MeshNode. -/
def SceneWit : Scene := Scene.ApplyOps Scene0 WitOps

/-- Construction history that overflows the 32-bit allocator: 2^31 - 1
material creations.  The last issued counter pattern is 2^31, whose
signed value is -2^31, smaller than every previously issued
identifier. -/
def C2CexOps : List Op := List.replicate 2147483647 Op.createMaterial

/-- First four steps of the draw-list counterexample history: one
material with one instance, one mesh, and one MeshNode registered under
the root. -/
def C7CexStart : List Op :=
  [.createMaterial,
   .createMaterialInstance 0,
   .createMesh ⟨⟨0, 0, 0⟩, ⟨1, 1, 1⟩⟩ ⟨"p", 12, 3, 36⟩ ⟨"u16", 2, 3, 6⟩,
   .addMeshNode [] 0 0 0]

/-- Construction history whose final CreateMaterial reuses identifier 2:
after the start, 2^32 - 4 mesh creations drive the 32-bit counter from
pattern 5 all the way around to pattern 1, so the final CreateMaterial
draws pattern 2 again and `m_materials[id] = ...` overwrites the first
material, destroying its instance and the registered MeshNode reference
while the MeshNode itself stays in the tree. -/
def C7CexOps : List Op :=
  C7CexStart
    ++ List.replicate 4294967292 (Op.createMesh ⟨⟨0, 0, 0⟩, ⟨1, 1, 1⟩⟩ ⟨"p", 12, 3, 36⟩ ⟨"u16", 2, 3, 6⟩)
    ++ [Op.createMaterial]

theorem ApplyTransformList_eq_map (tm : TrigModel) (cs : List Node) (m : Mat4) :
    Node.ApplyTransformList tm cs m = cs.map (fun c => c.ApplyTransform tm m) := by
  induction cs with
  | nil => simp [Node.ApplyTransformList]
  | cons c cs ih => simp [Node.ApplyTransformList, ih]

theorem StripTransformsList_eq_map (cs : List Node) :
    Node.StripTransformsList cs = cs.map Node.StripTransforms := by
  induction cs with
  | nil => simp [Node.StripTransformsList]
  | cons c cs ih => simp [Node.StripTransformsList, ih]

theorem MeshNodeIdsList_eq_flatMap (cs : List Node) :
    Node.MeshNodeIdsList cs = cs.flatMap Node.MeshNodeIds := by
  induction cs with
  | nil => simp [Node.MeshNodeIdsList]
  | cons c cs ih => simp [Node.MeshNodeIdsList, ih]

mutual

theorem Strip_ApplyTransform (tm : TrigModel) :
    (n : Node) → (m : Mat4) →
      (n.ApplyTransform tm m).StripTransforms = n.StripTransforms
  | .root i p cs, m => by
    simp [Node.ApplyTransform, Node.StripTransforms, StripList_ApplyTransformList tm cs m]
  | .translate i p a cs, m => by
    simp [Node.ApplyTransform, Node.StripTransforms, StripList_ApplyTransformList tm cs]
  | .rotate i p ax an cs, m => by
    simp [Node.ApplyTransform, Node.StripTransforms, StripList_ApplyTransformList tm cs]
  | .scale i p f cs, m => by
    simp [Node.ApplyTransform, Node.StripTransforms, StripList_ApplyTransformList tm cs]
  | .mesh i p mid iid t, m => by
    simp [Node.ApplyTransform, Node.StripTransforms]

theorem StripList_ApplyTransformList (tm : TrigModel) :
    (cs : List Node) → (m : Mat4) →
      Node.StripTransformsList (Node.ApplyTransformList tm cs m) = Node.StripTransformsList cs
  | [], m => by simp [Node.ApplyTransformList]
  | c :: cs, m => by
    simp [Node.ApplyTransformList, Node.StripTransformsList,
      Strip_ApplyTransform tm c m, StripList_ApplyTransformList tm cs m]

end

mutual

theorem MeshNodeIds_ApplyTransform (tm : TrigModel) :
    (n : Node) → (m : Mat4) →
      (n.ApplyTransform tm m).MeshNodeIds = n.MeshNodeIds
  | .root i p cs, m => by
    simp [Node.ApplyTransform, Node.MeshNodeIds, MeshNodeIdsList_ApplyTransformList tm cs]
  | .translate i p a cs, m => by
    simp [Node.ApplyTransform, Node.MeshNodeIds, MeshNodeIdsList_ApplyTransformList tm cs]
  | .rotate i p ax an cs, m => by
    simp [Node.ApplyTransform, Node.MeshNodeIds, MeshNodeIdsList_ApplyTransformList tm cs]
  | .scale i p f cs, m => by
    simp [Node.ApplyTransform, Node.MeshNodeIds, MeshNodeIdsList_ApplyTransformList tm cs]
  | .mesh i p mid iid t, m => by
    simp [Node.ApplyTransform, Node.MeshNodeIds]

theorem MeshNodeIdsList_ApplyTransformList (tm : TrigModel) :
    (cs : List Node) → (m : Mat4) →
      Node.MeshNodeIdsList (Node.ApplyTransformList tm cs m) = Node.MeshNodeIdsList cs
  | [], m => by simp [Node.ApplyTransformList]
  | c :: cs, m => by
    simp [Node.ApplyTransformList, Node.MeshNodeIdsList,
      MeshNodeIds_ApplyTransform tm c m, MeshNodeIdsList_ApplyTransformList tm cs m]

end

mutual

theorem FindMeshNode_isSome_of_mem :
    (n : Node) → {t : ID} → t ∈ n.MeshNodeIds → (n.FindMeshNode t).isSome
  | .root i p cs, t, h => FindMeshNodeList_isSome_of_mem cs h
  | .translate i p a cs, t, h => FindMeshNodeList_isSome_of_mem cs h
  | .rotate i p ax an cs, t, h => FindMeshNodeList_isSome_of_mem cs h
  | .scale i p f cs, t, h => FindMeshNodeList_isSome_of_mem cs h
  | .mesh i p mid iid tr, t, h => by
    simp [Node.MeshNodeIds] at h
    simp [Node.FindMeshNode, h]

theorem FindMeshNodeList_isSome_of_mem :
    (cs : List Node) → {t : ID} → t ∈ Node.MeshNodeIdsList cs →
      (Node.FindMeshNodeList cs t).isSome
  | [], t, h => by simp [Node.MeshNodeIdsList] at h
  | c :: cs, t, h => by
    rw [Node.MeshNodeIdsList] at h
    rcases List.mem_append.mp h with h1 | h2
    · have := FindMeshNode_isSome_of_mem c h1
      rw [Node.FindMeshNodeList]
      cases hf : c.FindMeshNode t with
      | some r => simp
      | none => rw [hf] at this; simp at this
    · rw [Node.FindMeshNodeList]
      cases hf : c.FindMeshNode t with
      | some r => simp
      | none => simpa using FindMeshNodeList_isSome_of_mem cs h2

end

theorem foldl_PushEntry (root2 : Node) (ns : List ID) (acc : List DrawEntry) :
    List.foldl (PushEntry root2) acc ns
      = acc ++ ns.filterMap (fun nid => root2.FindMeshNode nid) := by
  induction ns generalizing acc with
  | nil => simp
  | cons a t ih =>
    cases h : root2.FindMeshNode a with
    | some e => simp [PushEntry, List.filterMap_cons, h, ih]
    | none => simp [PushEntry, List.filterMap_cons, h, ih]

theorem foldl_FoldEntry (root2 : Node) (meshes : List Mesh) (ns : List ID) (out : AABB) :
    List.foldl (FoldEntry root2 meshes) out ns
      = List.foldl (fun o (p : Mat4 × AABB) => FoldCorners o p.1 p.2) out
          (ns.filterMap (BoxOf root2 meshes)) := by
  induction ns generalizing out with
  | nil => simp
  | cons a t ih =>
    cases h : root2.FindMeshNode a with
    | none => simp [FoldEntry, BoxOf, List.filterMap_cons, h, ih]
    | some r =>
      cases h2 : LookupMesh meshes r.1 with
      | none => simp [FoldEntry, BoxOf, List.filterMap_cons, h, h2, ih]
      | some mesh => simp [FoldEntry, BoxOf, List.filterMap_cons, h, h2, ih]

theorem foldl_append_flatMap (g : α → List β) (f : List β → α → List β)
    (hf : ∀ acc x, f acc x = acc ++ g x) (l : List α) (acc : List β) :
    List.foldl f acc l = acc ++ l.flatMap g := by
  induction l generalizing acc with
  | nil => simp
  | cons a t ih => simp [hf, ih, List.flatMap_cons]

theorem foldl_skip_filterMap (f : α → Option γ) (g : β → γ → β) (l : List α) (init : β) :
    List.foldl
      (fun out x =>
        match f x with
        | none => out
        | some y => g out y) init l
      = List.foldl g init (l.filterMap f) := by
  induction l generalizing init with
  | nil => simp
  | cons a t ih =>
    cases h : f a with
    | some y => simp [List.filterMap_cons, h, ih]
    | none => simp [List.filterMap_cons, h, ih]

theorem foldl_foldl_flatMap (g : β → γ → β) (h : α → List γ) (l : List α) (init : β) :
    List.foldl (fun out x => List.foldl g out (h x)) init l
      = List.foldl g init (l.flatMap h) := by
  induction l generalizing init with
  | nil => simp
  | cons a t ih => simp [List.flatMap_cons, List.foldl_append, ih]

theorem ComputeDrawList_eq_spec (tm : TrigModel) (order : List Nat) (s : Scene) :
    (Scene.ComputeDrawList tm order s).1 = SpecDrawList tm order s := by
  unfold Scene.ComputeDrawList SpecDrawList
  refine Eq.trans ?_ (List.nil_append _)
  apply foldl_append_flatMap
  intro acc material
  apply foldl_append_flatMap
  intro acc inst
  unfold InstanceEntries
  exact foldl_PushEntry (Node.ApplyTransform tm s.root IdMat) inst.meshNodes acc

theorem ComputeAABB_eq_spec (tm : TrigModel) (order : List Nat) (s : Scene)
    (h : s.root.GetChildren ≠ []) :
    (Scene.ComputeAxisAlignedBoundingBox tm order s).1
      = List.foldl (fun o (p : Mat4 × AABB) => FoldCorners o p.1 p.2) StartBox
          (SpecBoxList tm order s) := by
  unfold Scene.ComputeAxisAlignedBoundingBox SpecBoxList
  rw [if_neg (by simpa using h)]
  simp only [foldl_FoldEntry, foldl_foldl_flatMap]

theorem getElemQ_range_filterMap (l : List α) :
    (List.range l.length).filterMap (fun i => l[i]?) = l := by
  induction l with
  | nil => simp
  | cons a t ih =>
    rw [List.length_cons, List.range_succ_eq_map, List.filterMap_cons, List.filterMap_map]
    simp only [List.getElem?_cons_zero, Function.comp_def, List.getElem?_cons_succ]
    rw [ih]

theorem SelectOrder_range (mats : List Material) :
    SelectOrder (List.range mats.length) mats = mats :=
  getElemQ_range_filterMap mats

theorem SelectOrder_perm {order : List Nat} {mats : List Material}
    (h : IsValidOrder order mats.length) : (SelectOrder order mats).Perm mats := by
  have := h.filterMap (fun i => mats[i]?)
  rw [getElemQ_range_filterMap] at this
  exact this

/-- C3: for every Translate, Rotate, or Scale node with child list cs and
every incoming matrix M, ApplyTransform(M) computes
`effective = M * own_local_matrix` — the local matrix rebuilt from the
node's current parameters (translation from the stored offset vector,
rotation from axis and angle, scale with the scalar factor replicated on
all three axes) — and invokes ApplyTransform(effective) on every child of
cs in child-list order. -/
theorem claim_C3 :
    (∀ (tm : TrigModel) (i : ID) (p : Props) (a : Float3) (cs : List Node) (M : Mat4),
      Node.ApplyTransform tm (.translate i p a cs) M
        = .translate i p a (cs.map (fun c => c.ApplyTransform tm (M.mul (TranslateMat a)))))
    ∧ (∀ (tm : TrigModel) (i : ID) (p : Props) (ax : Float3) (an : Flt)
        (cs : List Node) (M : Mat4),
      Node.ApplyTransform tm (.rotate i p ax an cs) M
        = .rotate i p ax an (cs.map (fun c => c.ApplyTransform tm (M.mul (RotateMat tm an ax)))))
    ∧ (∀ (tm : TrigModel) (i : ID) (p : Props) (f : Flt) (cs : List Node) (M : Mat4),
      Node.ApplyTransform tm (.scale i p f cs) M
        = .scale i p f (cs.map (fun c => c.ApplyTransform tm (M.mul (ScaleMat ⟨f, f, f⟩))))) := by
  refine ⟨fun tm i p a cs M => ?_, fun tm i p ax an cs M => ?_, fun tm i p f cs M => ?_⟩ <;>
    rw [Node.ApplyTransform, ApplyTransformList_eq_map]

/-- C4: Root.ApplyTransform(M) forwards M unchanged to each of its
children, and MeshNode.ApplyTransform(M) stores M verbatim as the node's
current world transform, discarding the previous value wholesale;
MeshNode has no children to propagate to. -/
theorem claim_C4 :
    (∀ (tm : TrigModel) (i : ID) (p : Props) (cs : List Node) (M : Mat4),
      Node.ApplyTransform tm (.root i p cs) M
        = .root i p (cs.map (fun c => c.ApplyTransform tm M)))
    ∧ (∀ (tm : TrigModel) (i : ID) (p : Props) (mid iid : ID) (t M : Mat4),
      Node.ApplyTransform tm (.mesh i p mid iid t) M = .mesh i p mid iid M)
    ∧ (∀ (i : ID) (p : Props) (mid iid : ID) (t : Mat4),
      (Node.mesh i p mid iid t).GetChildren = []) := by
  refine ⟨fun tm i p cs M => ?_, fun tm i p mid iid t M => ?_, fun i p mid iid t => ?_⟩
  · rw [Node.ApplyTransform, ApplyTransformList_eq_map]
  · rw [Node.ApplyTransform]
  · rw [Node.GetChildren]

/-- C5: for every Scene whose root node has zero children,
ComputeAxisAlignedBoundingBox returns exactly the sentinel box with min
corner (-1,-1,-1) and max corner (1,1,1), whatever the material-map
iteration order. -/
theorem claim_C5 (tm : TrigModel) (order : List Nat) (s : Scene)
    (h : s.root.GetChildren = []) :
    (s.ComputeAxisAlignedBoundingBox tm order).1 = ⟨⟨-1, -1, -1⟩, ⟨1, 1, 1⟩⟩ := by
  unfold Scene.ComputeAxisAlignedBoundingBox
  rw [if_pos (by simp [h])]
  rfl

/-- Witness for C5 at the freshly constructed scene. -/
theorem claim_C5_witness :
    Scene0.root.GetChildren = []
    ∧ (Scene0.ComputeAxisAlignedBoundingBox TmTriv []).1 = ⟨⟨-1, -1, -1⟩, ⟨1, 1, 1⟩⟩ :=
  ⟨rfl, claim_C5 TmTriv [] Scene0 rfl⟩

/-- C10: ComputeDrawList and ComputeAxisAlignedBoundingBox leave every
part of the Scene unchanged except the world transforms stored in
MeshNodes: the materials (with their instances and registered
references), the meshes, the allocator counter, and the whole tree up to
the stored world transforms (child lists, parameters, properties and
identifiers) are the same before and after either query. -/
theorem claim_C10 (tm : TrigModel) (order : List Nat) (s : Scene) :
    ((s.ComputeDrawList tm order).2.materials = s.materials
      ∧ (s.ComputeDrawList tm order).2.meshes = s.meshes
      ∧ (s.ComputeDrawList tm order).2.counter = s.counter
      ∧ (s.ComputeDrawList tm order).2.root.StripTransforms = s.root.StripTransforms)
    ∧ ((s.ComputeAxisAlignedBoundingBox tm order).2.materials = s.materials
      ∧ (s.ComputeAxisAlignedBoundingBox tm order).2.meshes = s.meshes
      ∧ (s.ComputeAxisAlignedBoundingBox tm order).2.counter = s.counter
      ∧ (s.ComputeAxisAlignedBoundingBox tm order).2.root.StripTransforms
          = s.root.StripTransforms) := by
  constructor
  · exact ⟨rfl, rfl, rfl, Strip_ApplyTransform tm s.root IdMat⟩
  · unfold Scene.ComputeAxisAlignedBoundingBox
    by_cases h : (s.root.GetChildren).isEmpty <;> simp [h, Strip_ApplyTransform]

theorem EraseKey_eq_nil_of_all_eq {m : Dictionary} {k : String}
    (h : ∀ e ∈ m, e.fst = k) : EraseKey m k = [] := by
  induction m with
  | nil => rfl
  | cons e t ih =>
    have hk := h e (List.mem_cons_self e t)
    unfold EraseKey at ih ⊢
    simp only [List.filter_cons]
    rw [if_neg (by simp [hk])]
    exact ih (fun e he => h e (List.mem_cons_of_mem _ he))

theorem EraseKey_InsertOrAssign_eq_nil {m : Dictionary} {k : String} (v : Value)
    (h : ∀ e ∈ m, e.fst = k) : EraseKey (InsertOrAssign m k v) k = [] := by
  induction m with
  | nil =>
    unfold InsertOrAssign EraseKey
    simp
  | cons e t ih =>
    have hk := h e (List.mem_cons_self e t)
    obtain ⟨k', v'⟩ := e
    unfold InsertOrAssign
    rw [if_pos hk]
    unfold EraseKey
    simp only [List.filter_cons]
    rw [if_neg (by simp)]
    exact EraseKey_eq_nil_of_all_eq (fun e he => h e (List.mem_cons_of_mem _ he))

/-- C8 (amended): for every object whose property dictionary contains no
key other than k — in particular any object that never had a property —
calling SetProperty(k, v) and then RemoveProperty(k) leaves
HasProperties() false.  With an unrelated key present the claim as stated
fails, see the counterexample. -/
theorem claim_C8 (d : Props) (k : String) (v : Value)
    (h : ∀ e ∈ d.getD [], e.fst = k) :
    HasProperties (RemoveProperty (SetProperty d k v) k) = false := by
  cases d with
  | none =>
    simp [SetProperty, RemoveProperty, HasProperties, EraseKey]
  | some m =>
    simp only [SetProperty, RemoveProperty, HasProperties]
    rw [EraseKey_InsertOrAssign_eq_nil v (by simpa using h)]
    rfl

/-- Witness for C8 at an object holding only the key being removed. -/
theorem claim_C8_witness :
    (∀ e ∈ (some [("k", Value.intV 1)] : Props).getD [], e.fst = "k")
    ∧ HasProperties
        (RemoveProperty (SetProperty (some [("k", Value.intV 1)]) "k" (Value.intV 2)) "k")
        = false := by
  refine ⟨by decide, claim_C8 (some [("k", Value.intV 1)]) "k" (Value.intV 2) (by decide)⟩

/-- C8 counterexample: on an object that also holds an unrelated property
"a", SetProperty("b", v) followed by RemoveProperty("b") leaves
HasProperties() true, contradicting the claim as stated for every object
and key. -/
theorem claim_C8_counterexample :
    HasProperties
      (RemoveProperty
        (SetProperty (SetProperty none "a" (Value.intV 1)) "b" (Value.intV 2)) "b")
      = true := by
  decide

theorem Mesh_GetField_isSome (m : Mesh) (name : String) :
    (m.GetField name).isSome ↔ name ∈ MeshMetadata.fields.map FieldInfo.key := by
  unfold Mesh.GetField MeshMetadata
  split_ifs with h1 h2 h3 h4 h5 h6 h7 h8 <;> simp_all

theorem Node_GetField_isSome (n : Node) (name : String) :
    (n.GetField name).isSome ↔ name ∈ n.MetadataOf.fields.map FieldInfo.key := by
  cases n with
  | root i p cs => simp [Node.GetField, Node.MetadataOf, RootMetadata]
  | translate i p a cs =>
    simp only [Node.GetField, Node.MetadataOf, TranslateMetadata]
    split_ifs with h1 <;> simp_all
  | rotate i p ax an cs =>
    simp only [Node.GetField, Node.MetadataOf, RotateMetadata]
    split_ifs with h1 h2 <;> simp_all
  | scale i p f cs =>
    simp only [Node.GetField, Node.MetadataOf, ScaleMetadata]
    split_ifs with h1 <;> simp_all
  | mesh i p mid iid t =>
    simp only [Node.GetField, Node.MetadataOf, MeshNodeMetadata]
    split_ifs with h1 h2 <;> simp_all

/-- C9: for every node or mesh instance, GetField(name) returns a typed
handle exactly when the name is one of the kind's valid field names (the
keys of its static metadata table) and the explicit "not found" result
`none` for every other name; the functions are total and pure, so they
neither throw nor have side effects.  In particular Root has no fields and
its GetField returns "not found" for every name. -/
theorem claim_C9 :
    (∀ (m : Mesh) (name : String),
      (m.GetField name).isSome ↔ name ∈ MeshMetadata.fields.map FieldInfo.key)
    ∧ (∀ (n : Node) (name : String),
      (n.GetField name).isSome ↔ name ∈ n.MetadataOf.fields.map FieldInfo.key)
    ∧ (∀ (i : ID) (p : Props) (cs : List Node) (name : String),
      Node.GetField (.root i p cs) name = none) :=
  ⟨Mesh_GetField_isSome, Node_GetField_isSome, fun _i _p _cs _name => rfl⟩

/-- C1 (amended): ComputeDrawList first refreshes all world transforms and
then iterates the materials **in the iteration order of the manager's
`std::unordered_map`** — some ordering of the created materials that the
C++ standard leaves unspecified, not necessarily creation order — then
each material's instances in creation order and each instance's
referenced MeshNodes in reference order, emitting exactly one
`(mesh pointer, world-transform pointer)` entry per MeshNode.  The
sequence is determined by the construction history together with that map
order. -/
theorem claim_C1 (tm : TrigModel) (order : List Nat) (s : Scene) :
    (s.ComputeDrawList tm order).1 = SpecDrawList tm order s :=
  ComputeDrawList_eq_spec tm order s

/-- C1 counterexample: a scene with two materials, each holding one
instance with one MeshNode.  The order that hands the second-created
material out first is an admissible `std::unordered_map` iteration order,
and under it the draw list is not the creation-order sequence the claim
asserts, so the draw list is not determined by the construction history
alone. -/
theorem claim_C1_counterexample :
    IsValidOrder [1, 0] SceneCex.materials.length
    ∧ (Scene.ComputeDrawList TmTriv [1, 0] SceneCex).1
        ≠ SpecDrawListCreationOrder TmTriv SceneCex := by
  constructor
  · unfold IsValidOrder
    decide
  · decide

theorem ApplyOp_ids (s : Scene) (op : Op) :
    ((s.ApplyOp op).2 = [] ∧ (s.ApplyOp op).1.counter = s.counter)
    ∨ ((s.ApplyOp op).2 = [⟨ToSigned ((s.counter + 1) % 4294967296)⟩]
        ∧ (s.ApplyOp op).1.counter = (s.counter + 1) % 4294967296) := by
  cases op with
  | createMaterial => right; exact ⟨rfl, rfl⟩
  | createMesh box v ix => right; exact ⟨rfl, rfl⟩
  | createMaterialInstance matIdx =>
    by_cases h : matIdx < s.materials.length
    · right
      simp [Scene.ApplyOp, h, GetUniqueID]
    · left
      simp [Scene.ApplyOp, h]
  | addTranslateNode path x y z =>
    cases h : Node.AddChildAt path s.root
        (.translate ⟨ToSigned ((s.counter + 1) % 4294967296)⟩ none ⟨x, y, z⟩ []) with
    | some r => right; simp [Scene.ApplyOp, GetUniqueID, h]
    | none => left; simp [Scene.ApplyOp, GetUniqueID, h]
  | addRotateNode path x y z angle =>
    cases h : Node.AddChildAt path s.root
        (.rotate ⟨ToSigned ((s.counter + 1) % 4294967296)⟩ none ⟨x, y, z⟩ angle []) with
    | some r => right; simp [Scene.ApplyOp, GetUniqueID, h]
    | none => left; simp [Scene.ApplyOp, GetUniqueID, h]
  | addScaleNode path factor =>
    cases h : Node.AddChildAt path s.root
        (.scale ⟨ToSigned ((s.counter + 1) % 4294967296)⟩ none factor []) with
    | some r => right; simp [Scene.ApplyOp, GetUniqueID, h]
    | none => left; simp [Scene.ApplyOp, GetUniqueID, h]
  | addMeshNode path meshIdx matIdx instIdx =>
    cases hm : s.meshes[meshIdx]? with
    | none => left; simp [Scene.ApplyOp, hm]
    | some mesh =>
      cases hi : s.GetInstance matIdx instIdx with
      | none => left; simp [Scene.ApplyOp, hm, hi]
      | some inst =>
        cases h : Node.AddChildAt path s.root
            (.mesh ⟨ToSigned ((s.counter + 1) % 4294967296)⟩ none mesh.id inst.id IdMat) with
        | some r => right; simp [Scene.ApplyOp, GetUniqueID, hm, hi, h]
        | none => left; simp [Scene.ApplyOp, GetUniqueID, hm, hi, h]

theorem ToSigned_of_lt {n : Nat} (h : n < 2147483648) : ToSigned n = (n : Int) := by
  unfold ToSigned
  rw [if_pos h]

theorem IdTrace_increasing :
    ∀ (ops : List Op) (s : Scene), s.counter + ops.length < 2147483648 →
      List.Pairwise (fun a b : ID => a.value < b.value) (Scene.IdTrace s ops)
      ∧ ∀ i ∈ Scene.IdTrace s ops, (s.counter : Int) < i.value := by
  intro ops
  induction ops with
  | nil => intro s _; simp [Scene.IdTrace]
  | cons op ops ih =>
    intro s hbound
    rw [Scene.IdTrace]
    rcases ApplyOp_ids s op with ⟨hids, hc⟩ | ⟨hids, hc⟩
    · rw [hids, List.nil_append]
      have hb2 : (s.ApplyOp op).1.counter + ops.length < 2147483648 := by
        rw [hc]
        rw [List.length_cons] at hbound
        omega
      refine ⟨(ih _ hb2).1, fun i hi => ?_⟩
      have := (ih _ hb2).2 i hi
      rw [hc] at this
      exact this
    · have hstep : s.counter + 1 < 2147483648 := by
        rw [List.length_cons] at hbound
        omega
      have hmod : (s.counter + 1) % 4294967296 = s.counter + 1 :=
        Nat.mod_eq_of_lt (by omega)
      rw [hmod] at hids hc
      rw [hids, List.singleton_append]
      have hb2 : (s.ApplyOp op).1.counter + ops.length < 2147483648 := by
        rw [hc]
        rw [List.length_cons] at hbound
        omega
      have hval : ToSigned (s.counter + 1) = ((s.counter : Int) + 1) := by
        rw [ToSigned_of_lt hstep]
        push_cast
        ring
      have hval2 : (⟨ToSigned (s.counter + 1)⟩ : ID).value = (s.counter : Int) + 1 := hval
      constructor
      · rw [List.pairwise_cons]
        refine ⟨fun b hb => ?_, (ih _ hb2).1⟩
        have := (ih _ hb2).2 b hb
        rw [hc] at this
        show (⟨ToSigned (s.counter + 1)⟩ : ID).value < b.value
        rw [hval2]
        push_cast at this
        omega
      · intro i hi
        rcases List.mem_cons.mp hi with rfl | hmem
        · show (s.counter : Int) < (⟨ToSigned (s.counter + 1)⟩ : ID).value
          rw [hval2]
          omega
        · have := (ih _ hb2).2 i hmem
          rw [hc] at this
          push_cast at this
          omega

theorem IdTrace_replicate_createMaterial :
    ∀ (n : Nat) (s : Scene),
      Scene.IdTrace s (List.replicate n Op.createMaterial)
        = (List.range n).map (fun k => ⟨ToSigned ((s.counter + k + 1) % 4294967296)⟩) := by
  intro n
  induction n with
  | zero => intro s; simp [Scene.IdTrace]
  | succ n ih =>
    intro s
    rw [List.replicate_succ, Scene.IdTrace, ih]
    have h1 : (s.ApplyOp Op.createMaterial).2
        = [⟨ToSigned ((s.counter + 0 + 1) % 4294967296)⟩] := rfl
    have h2 : (s.ApplyOp Op.createMaterial).1.counter = (s.counter + 1) % 4294967296 := rfl
    rw [h1, List.singleton_append, List.range_succ_eq_map, List.map_cons, List.map_map]
    simp only [h2]
    congr 1
    apply List.map_congr_left
    intro k _
    simp only [Function.comp_apply, ID.mk.injEq]
    congr 1
    omega

/-- C2 (amended): for every interleaved sequence of creations of meshes,
materials, material instances, and nodes against a fresh scene, **as long
as fewer than 2^31 identifiers are allocated in total** (so the 32-bit
counter never overflows), each issued Identifier is unique and strictly
greater than every previously issued Identifier, regardless of which
object kind requested it.  Once the counter overflows, the issued signed
value becomes negative and the claim as stated fails, see the
counterexample. -/
theorem claim_C2 (ops : List Op) (hlen : ops.length + 1 < 2147483648) :
    List.Pairwise (fun a b : ID => a.value < b.value) (Scene.IdTrace Scene0 ops)
    ∧ (Scene.IdTrace Scene0 ops).Nodup := by
  have hb : Scene0.counter + ops.length < 2147483648 := by
    show 1 + ops.length < 2147483648
    omega
  refine ⟨(IdTrace_increasing ops Scene0 hb).1, ?_⟩
  refine ((IdTrace_increasing ops Scene0 hb).1).imp (fun h heq => ?_)
  rw [heq] at h
  omega

/-- C2 counterexample: after 2^31 - 1 creations the static
`std::atomic_int` counter reaches 2^31, which as a signed int is -2^31:
the last issued Identifier is smaller than the first, so the issued
sequence is not strictly increasing. -/
theorem claim_C2_counterexample :
    ¬ (List.Pairwise (fun a b : ID => a.value < b.value) (Scene.IdTrace Scene0 C2CexOps)
        ∧ (Scene.IdTrace Scene0 C2CexOps).Nodup) := by
  intro ⟨hpair, _⟩
  rw [show Scene.IdTrace Scene0 C2CexOps
      = Scene.IdTrace Scene0 (List.replicate 2147483647 Op.createMaterial) from rfl,
    IdTrace_replicate_createMaterial 2147483647 Scene0] at hpair
  have hlen : ((List.range 2147483647).map
      (fun k => (⟨ToSigned ((Scene0.counter + k + 1) % 4294967296)⟩ : ID))).length
      = 2147483647 := by
    rw [List.length_map, List.length_range]
  rw [List.pairwise_iff_getElem] at hpair
  have h2 := hpair 0 2147483646 (by omega) (by omega) (by omega)
  rw [List.getElem_map, List.getElem_map, List.getElem_range, List.getElem_range] at h2
  have ha : ToSigned ((Scene0.counter + 0 + 1) % 4294967296) = 2 := by decide
  have hb : ToSigned ((Scene0.counter + 2147483646 + 1) % 4294967296) = -2147483648 := by
    show ToSigned ((1 + 2147483646 + 1) % 4294967296) = -2147483648
    rw [show (1 + 2147483646 + 1) % 4294967296 = 2147483648 from by decide]
    unfold ToSigned
    rw [if_neg (by omega)]
    decide
  rw [ha, hb] at h2
  exact absurd h2 (by decide)

/-- Witness for the amended C2 at a short concrete history. -/
theorem claim_C2_witness :
    WitOps.length + 1 < 2147483648
    ∧ (List.Pairwise (fun a b : ID => a.value < b.value) (Scene.IdTrace Scene0 WitOps)
        ∧ (Scene.IdTrace Scene0 WitOps).Nodup) :=
  ⟨by decide, claim_C2 WitOps (by decide)⟩

theorem flatMap_ListModify_perm {α β : Type} (g : α → List β) (f : α → α) (extra : List β) :
    ∀ (l : List α) (i : Nat) (hi : i < l.length),
      (g (f (l.get ⟨i, hi⟩))).Perm (g (l.get ⟨i, hi⟩) ++ extra) →
      ((ListModify l i f).flatMap g).Perm (l.flatMap g ++ extra) := by
  intro l
  induction l with
  | nil => intro i hi h; simp at hi
  | cons a t ih =>
    intro i hi h
    cases i with
    | zero =>
      rw [ListModify, List.flatMap_cons, List.flatMap_cons]
      refine ((h.append_right (t.flatMap g)).trans ?_)
      rw [List.append_assoc, List.append_assoc]
      exact List.perm_append_comm.append_left (g a)
    | succ i =>
      rw [ListModify, List.flatMap_cons, List.flatMap_cons, List.append_assoc]
      have hi2 : i < t.length := by
        rw [List.length_cons] at hi
        omega
      exact (ih i hi2 (by simpa using h)).append_left (g a)

theorem MeshNodeIdsList_append (xs ys : List Node) :
    Node.MeshNodeIdsList (xs ++ ys) = Node.MeshNodeIdsList xs ++ Node.MeshNodeIdsList ys := by
  simp [MeshNodeIdsList_eq_flatMap]

theorem WithChildren_meshIds {n n' : Node} {cs : List Node}
    (h : n.WithChildren cs = some n') :
    n'.MeshNodeIds = Node.MeshNodeIdsList cs
    ∧ n.MeshNodeIds = Node.MeshNodeIdsList n.GetChildren := by
  cases n with
  | root i p cs0 =>
    rw [Node.WithChildren] at h
    cases h
    exact ⟨rfl, rfl⟩
  | translate i p a cs0 =>
    rw [Node.WithChildren] at h
    cases h
    exact ⟨rfl, rfl⟩
  | rotate i p ax an cs0 =>
    rw [Node.WithChildren] at h
    cases h
    exact ⟨rfl, rfl⟩
  | scale i p f cs0 =>
    rw [Node.WithChildren] at h
    cases h
    exact ⟨rfl, rfl⟩
  | mesh i p mid iid t =>
    rw [Node.WithChildren] at h
    cases h

theorem MeshNodeIds_AddChildAt :
    ∀ (path : List Nat) (n c n' : Node), Node.AddChildAt path n c = some n' →
      n'.MeshNodeIds.Perm (n.MeshNodeIds ++ c.MeshNodeIds) := by
  intro path
  induction path with
  | nil =>
    intro n c n' h
    rw [Node.AddChildAt] at h
    obtain ⟨h1, h2⟩ := WithChildren_meshIds h
    rw [h1, h2, MeshNodeIdsList_append]
    simp [Node.MeshNodeIdsList]
  | cons i rest ih =>
    intro n c n' h
    rw [Node.AddChildAt] at h
    cases hg : n.GetChildren[i]? with
    | none =>
      simp only [hg] at h
      exact Option.noConfusion h
    | some ch =>
      simp only [hg] at h
      cases hrec : Node.AddChildAt rest ch c with
      | none =>
        simp only [hrec] at h
        exact Option.noConfusion h
      | some ch' =>
        simp only [hrec] at h
        obtain ⟨h1, h2⟩ := WithChildren_meshIds h
        rw [h1, h2, MeshNodeIdsList_eq_flatMap, MeshNodeIdsList_eq_flatMap]
        have hi : i < n.GetChildren.length := (List.getElem?_eq_some.mp hg).1
        apply flatMap_ListModify_perm
        have hch : n.GetChildren.get ⟨i, hi⟩ = ch := by
          have := (List.getElem?_eq_some.mp hg).2
          simpa [List.get_eq_getElem] using this
        rw [hch]
        exact ih ch c ch' hrec

theorem SceneInv_Scene0 : SceneInv Scene0 := by
  unfold SceneInv RegistryIds Scene0
  simp [Node.MeshNodeIds, Node.MeshNodeIdsList, GetUniqueID]

theorem mem_ListModify_imp {α : Type} {f : α → α} :
    ∀ {l : List α} {i : Nat} {x : α}, x ∈ ListModify l i f → x ∈ l ∨ ∃ y ∈ l, x = f y := by
  intro l
  induction l with
  | nil =>
    intro i x hx
    simp [ListModify] at hx
  | cons a t ih =>
    intro i x hx
    cases i with
    | zero =>
      rw [ListModify] at hx
      rcases List.mem_cons.mp hx with rfl | hm
      · exact Or.inr ⟨a, List.mem_cons_self a t, rfl⟩
      · exact Or.inl (List.mem_cons_of_mem a hm)
    | succ i =>
      rw [ListModify] at hx
      rcases List.mem_cons.mp hx with rfl | hm
      · exact Or.inl (List.mem_cons_self x t)
      · rcases ih hm with h1 | ⟨y, hy, hxy⟩
        · exact Or.inl (List.mem_cons_of_mem a h1)
        · exact Or.inr ⟨y, List.mem_cons_of_mem a hy, hxy⟩

theorem StoreMaterial_fresh {mats : List Material} {m : Material}
    (h : ∀ x ∈ mats, x.id ≠ m.id) : StoreMaterial mats m = mats ++ [m] := by
  unfold StoreMaterial
  rw [if_neg]
  intro hc
  rcases List.any_eq_true.mp hc with ⟨x, hx, hxe⟩
  exact h x hx (of_decide_eq_true hxe)

theorem MatIdsLe_Scene0 : MatIdsLe Scene0 := by
  intro m hm
  exact absurd hm (List.not_mem_nil m)

theorem ApplyOp_good (s : Scene) (op : Op) (hc : s.counter + 1 < 2147483648)
    (hb : MatIdsLe s) (hinv : SceneInv s) :
    MatIdsLe (s.ApplyOp op).1 ∧ SceneInv (s.ApplyOp op).1
    ∧ s.counter ≤ (s.ApplyOp op).1.counter ∧ (s.ApplyOp op).1.counter ≤ s.counter + 1 := by
  have hmod : (s.counter + 1) % 4294967296 = s.counter + 1 := Nat.mod_eq_of_lt (by omega)
  have hsig : ToSigned ((s.counter + 1) % 4294967296) = (s.counter : Int) + 1 := by
    rw [hmod, ToSigned_of_lt hc]
    push_cast
    ring
  cases op with
  | createMaterial =>
    have hfresh : ∀ x ∈ s.materials,
        x.id ≠ (⟨ToSigned ((s.counter + 1) % 4294967296)⟩ : ID) := by
      intro x hx heq
      have hxv : x.id.value = ToSigned ((s.counter + 1) % 4294967296) := congrArg ID.value heq
      rw [hsig] at hxv
      have := hb x hx
      omega
    have hstore : StoreMaterial s.materials
        ⟨⟨ToSigned ((s.counter + 1) % 4294967296)⟩, none, []⟩
        = s.materials ++ [⟨⟨ToSigned ((s.counter + 1) % 4294967296)⟩, none, []⟩] :=
      StoreMaterial_fresh hfresh
    refine ⟨?_, ?_, ?_, ?_⟩
    · intro m hm
      have hm2 : m ∈ s.materials ++ [⟨⟨ToSigned ((s.counter + 1) % 4294967296)⟩, none, []⟩] := by
        rw [← hstore]
        exact hm
      have hcnt : (((s.ApplyOp Op.createMaterial).1.counter : Nat) : Int)
          = (s.counter : Int) + 1 := by
        show (((s.counter + 1) % 4294967296 : Nat) : Int) = (s.counter : Int) + 1
        rw [hmod]
        push_cast
        ring
      rw [hcnt]
      rcases List.mem_append.mp hm2 with hold | hnew
      · have := hb m hold
        omega
      · rcases List.mem_singleton.mp hnew with rfl
        show ToSigned ((s.counter + 1) % 4294967296) ≤ (s.counter : Int) + 1
        rw [hsig]
    · show ((StoreMaterial s.materials
          ⟨⟨ToSigned ((s.counter + 1) % 4294967296)⟩, none, []⟩).flatMap
            MaterialRegistry).Perm s.root.MeshNodeIds
      rw [hstore, List.flatMap_append]
      simpa [MaterialRegistry] using hinv
    · show s.counter ≤ (s.counter + 1) % 4294967296
      omega
    · show (s.counter + 1) % 4294967296 ≤ s.counter + 1
      omega
  | createMesh box v ix =>
    refine ⟨?_, hinv, ?_, ?_⟩
    · intro m hm
      have := hb m hm
      have hcnt : (((s.ApplyOp (Op.createMesh box v ix)).1.counter : Nat) : Int)
          = (s.counter : Int) + 1 := by
        show (((s.counter + 1) % 4294967296 : Nat) : Int) = (s.counter : Int) + 1
        rw [hmod]
        push_cast
        ring
      rw [hcnt]
      omega
    · show s.counter ≤ (s.counter + 1) % 4294967296
      omega
    · show (s.counter + 1) % 4294967296 ≤ s.counter + 1
      omega
  | createMaterialInstance matIdx =>
    by_cases hlt : matIdx < s.materials.length
    · simp only [Scene.ApplyOp, GetUniqueID, if_pos hlt]
      refine ⟨?_, ?_, ?_, ?_⟩
      · intro m hm
        simp only at hm
        rcases mem_ListModify_imp hm with hmem | ⟨y, hy, hxy⟩
        · have := hb _ hmem
          simp only []
          rw [hmod]
          push_cast
          omega
        · have := hb _ hy
          rw [hxy]
          simp only []
          rw [hmod]
          push_cast
          omega
      · unfold SceneInv at hinv ⊢
        unfold RegistryIds
        have hreg := flatMap_ListModify_perm MaterialRegistry
          (fun m => { m with instances := m.instances
            ++ [⟨⟨ToSigned ((s.counter + 1) % 4294967296)⟩, none, []⟩] })
          [] s.materials matIdx hlt
          (by simp [MaterialRegistry, List.flatMap_append])
        rw [List.append_nil] at hreg
        exact hreg.trans hinv
      · show s.counter ≤ (s.counter + 1) % 4294967296
        omega
      · show (s.counter + 1) % 4294967296 ≤ s.counter + 1
        omega
    · simp only [Scene.ApplyOp, if_neg hlt]
      exact ⟨hb, hinv, Nat.le_refl _, Nat.le_succ _⟩
  | addTranslateNode path x y z =>
    cases hadd : Node.AddChildAt path s.root
        (.translate ⟨ToSigned ((s.counter + 1) % 4294967296)⟩ none ⟨x, y, z⟩ []) with
    | none =>
      simp only [Scene.ApplyOp, GetUniqueID, hadd]
      exact ⟨hb, hinv, Nat.le_refl _, Nat.le_succ _⟩
    | some r =>
      simp only [Scene.ApplyOp, GetUniqueID, hadd]
      have ht := MeshNodeIds_AddChildAt path s.root _ r hadd
      rw [show (Node.translate ⟨ToSigned ((s.counter + 1) % 4294967296)⟩
          none ⟨x, y, z⟩ []).MeshNodeIds = [] from rfl, List.append_nil] at ht
      refine ⟨?_, ?_, ?_, ?_⟩
      · intro m hm
        have := hb m hm
        rw [hmod]
        push_cast
        omega
      · unfold SceneInv at hinv ⊢
        exact hinv.trans ht.symm
      · show s.counter ≤ (s.counter + 1) % 4294967296
        omega
      · show (s.counter + 1) % 4294967296 ≤ s.counter + 1
        omega
  | addRotateNode path x y z angle =>
    cases hadd : Node.AddChildAt path s.root
        (.rotate ⟨ToSigned ((s.counter + 1) % 4294967296)⟩ none ⟨x, y, z⟩ angle []) with
    | none =>
      simp only [Scene.ApplyOp, GetUniqueID, hadd]
      exact ⟨hb, hinv, Nat.le_refl _, Nat.le_succ _⟩
    | some r =>
      simp only [Scene.ApplyOp, GetUniqueID, hadd]
      have ht := MeshNodeIds_AddChildAt path s.root _ r hadd
      rw [show (Node.rotate ⟨ToSigned ((s.counter + 1) % 4294967296)⟩
          none ⟨x, y, z⟩ angle []).MeshNodeIds = [] from rfl, List.append_nil] at ht
      refine ⟨?_, ?_, ?_, ?_⟩
      · intro m hm
        have := hb m hm
        rw [hmod]
        push_cast
        omega
      · unfold SceneInv at hinv ⊢
        exact hinv.trans ht.symm
      · show s.counter ≤ (s.counter + 1) % 4294967296
        omega
      · show (s.counter + 1) % 4294967296 ≤ s.counter + 1
        omega
  | addScaleNode path factor =>
    cases hadd : Node.AddChildAt path s.root
        (.scale ⟨ToSigned ((s.counter + 1) % 4294967296)⟩ none factor []) with
    | none =>
      simp only [Scene.ApplyOp, GetUniqueID, hadd]
      exact ⟨hb, hinv, Nat.le_refl _, Nat.le_succ _⟩
    | some r =>
      simp only [Scene.ApplyOp, GetUniqueID, hadd]
      have ht := MeshNodeIds_AddChildAt path s.root _ r hadd
      rw [show (Node.scale ⟨ToSigned ((s.counter + 1) % 4294967296)⟩
          none factor []).MeshNodeIds = [] from rfl, List.append_nil] at ht
      refine ⟨?_, ?_, ?_, ?_⟩
      · intro m hm
        have := hb m hm
        rw [hmod]
        push_cast
        omega
      · unfold SceneInv at hinv ⊢
        exact hinv.trans ht.symm
      · show s.counter ≤ (s.counter + 1) % 4294967296
        omega
      · show (s.counter + 1) % 4294967296 ≤ s.counter + 1
        omega
  | addMeshNode path meshIdx matIdx instIdx =>
    cases hm : s.meshes[meshIdx]? with
    | none =>
      simp only [Scene.ApplyOp, hm]
      exact ⟨hb, hinv, Nat.le_refl _, Nat.le_succ _⟩
    | some mesh =>
      cases hi : s.GetInstance matIdx instIdx with
      | none =>
        simp only [Scene.ApplyOp, hm, hi]
        exact ⟨hb, hinv, Nat.le_refl _, Nat.le_succ _⟩
      | some inst =>
        cases hadd : Node.AddChildAt path s.root
            (.mesh ⟨ToSigned ((s.counter + 1) % 4294967296)⟩ none mesh.id inst.id IdMat) with
        | none =>
          simp only [Scene.ApplyOp, GetUniqueID, hm, hi, hadd]
          exact ⟨hb, hinv, Nat.le_refl _, Nat.le_succ _⟩
        | some r =>
          simp only [Scene.ApplyOp, GetUniqueID, hm, hi, hadd]
          unfold Scene.GetInstance at hi
          refine ⟨?_, ?_, ?_, ?_⟩
          · intro m hmem
            simp only at hmem
            rcases mem_ListModify_imp hmem with hmem2 | ⟨y, hy, hxy⟩
            · have := hb _ hmem2
              rw [hmod]
              push_cast
              omega
            · have := hb _ hy
              rw [hxy]
              rw [hmod]
              push_cast
              omega
          · cases hmm : s.materials[matIdx]? with
            | none => rw [hmm] at hi; exact Option.noConfusion hi
            | some m0 =>
              rw [hmm] at hi
              simp only at hi
              have hmatlt : matIdx < s.materials.length := (List.getElem?_eq_some.mp hmm).1
              have hinstlt : instIdx < m0.instances.length := (List.getElem?_eq_some.mp hi).1
              have hget : s.materials.get ⟨matIdx, hmatlt⟩ = m0 := by
                have := (List.getElem?_eq_some.mp hmm).2
                simpa [List.get_eq_getElem] using this
              unfold SceneInv at hinv ⊢
              have hinner :
                  (MaterialRegistry
                      { m0 with
                        instances := ListModify m0.instances instIdx
                          (fun ist => { ist with
                            meshNodes := ist.meshNodes
                              ++ [⟨ToSigned ((s.counter + 1) % 4294967296)⟩] }) }).Perm
                    (MaterialRegistry m0
                      ++ [⟨ToSigned ((s.counter + 1) % 4294967296)⟩]) := by
                unfold MaterialRegistry
                exact flatMap_ListModify_perm (fun i : MaterialInstance => i.meshNodes)
                  (fun ist => { ist with meshNodes := ist.meshNodes
                    ++ [⟨ToSigned ((s.counter + 1) % 4294967296)⟩] })
                  [⟨ToSigned ((s.counter + 1) % 4294967296)⟩] m0.instances instIdx hinstlt
                  (List.Perm.refl _)
              have hreg := flatMap_ListModify_perm MaterialRegistry
                (fun m => { m with
                  instances := ListModify m.instances instIdx
                    (fun ist => { ist with meshNodes := ist.meshNodes
                      ++ [⟨ToSigned ((s.counter + 1) % 4294967296)⟩] }) })
                [⟨ToSigned ((s.counter + 1) % 4294967296)⟩]
                s.materials matIdx hmatlt (by rw [hget]; exact hinner)
              have ht := MeshNodeIds_AddChildAt path s.root _ r hadd
              rw [show (Node.mesh ⟨ToSigned ((s.counter + 1) % 4294967296)⟩
                  none mesh.id inst.id IdMat).MeshNodeIds
                = [⟨ToSigned ((s.counter + 1) % 4294967296)⟩] from rfl] at ht
              unfold RegistryIds
              exact hreg.trans ((hinv.append_right _).trans ht.symm)
          · show s.counter ≤ (s.counter + 1) % 4294967296
            omega
          · show (s.counter + 1) % 4294967296 ≤ s.counter + 1
            omega

theorem ApplyOps_good :
    ∀ (ops : List Op) (s : Scene), s.counter + ops.length < 2147483648 →
      MatIdsLe s → SceneInv s →
      MatIdsLe (Scene.ApplyOps s ops) ∧ SceneInv (Scene.ApplyOps s ops)
        ∧ (Scene.ApplyOps s ops).counter ≤ s.counter + ops.length := by
  intro ops
  induction ops with
  | nil =>
    intro s _ hb hinv
    rw [Scene.ApplyOps]
    exact ⟨hb, hinv, by omega⟩
  | cons op ops ih =>
    intro s hbound hb hinv
    rw [Scene.ApplyOps]
    have hc : s.counter + 1 < 2147483648 := by
      rw [List.length_cons] at hbound
      omega
    obtain ⟨hb1, hinv1, hge, hle⟩ := ApplyOp_good s op hc hb hinv
    have hbound1 : (s.ApplyOp op).1.counter + ops.length < 2147483648 := by
      rw [List.length_cons] at hbound
      omega
    obtain ⟨hb2, hinv2, hcnt⟩ := ih _ hbound1 hb1 hinv1
    refine ⟨hb2, hinv2, ?_⟩
    rw [List.length_cons]
    omega

theorem length_filterMap_of_isSome {α β : Type} {f : α → Option β} :
    ∀ {l : List α}, (∀ x ∈ l, (f x).isSome) → (l.filterMap f).length = l.length := by
  intro l
  induction l with
  | nil => intro _; rfl
  | cons a t ih =>
    intro h
    have ha := h a (List.mem_cons_self a t)
    cases hf : f a with
    | none => rw [hf] at ha; exact Bool.noConfusion ha
    | some b =>
      rw [List.filterMap_cons, hf]
      simp only [List.length_cons]
      rw [ih (fun x hx => h x (List.mem_cons_of_mem _ hx))]

theorem length_InstanceEntries (root2 : Node) (inst : MaterialInstance)
    (h : ∀ nid ∈ inst.meshNodes, (root2.FindMeshNode nid).isSome) :
    (InstanceEntries root2 inst).length = inst.meshNodes.length :=
  length_filterMap_of_isSome h

theorem length_flatMap_InstanceEntries (root2 : Node) :
    ∀ (insts : List MaterialInstance),
      (∀ nid ∈ insts.flatMap (fun i => i.meshNodes), (root2.FindMeshNode nid).isSome) →
      (insts.flatMap (InstanceEntries root2)).length
        = (insts.flatMap (fun i => i.meshNodes)).length := by
  intro insts
  induction insts with
  | nil => intro _; rfl
  | cons inst t ih =>
    intro h
    rw [List.flatMap_cons, List.flatMap_cons, List.length_append, List.length_append]
    rw [List.flatMap_cons] at h
    rw [length_InstanceEntries root2 inst
      (fun nid hn => h nid (List.mem_append.mpr (Or.inl hn)))]
    rw [ih (fun nid hn => h nid (List.mem_append.mpr (Or.inr hn)))]

theorem length_MaterialEntries (root2 : Node) (m : Material)
    (h : ∀ nid ∈ MaterialRegistry m, (root2.FindMeshNode nid).isSome) :
    (MaterialEntries root2 m).length = (MaterialRegistry m).length :=
  length_flatMap_InstanceEntries root2 m.instances h

theorem length_flatMap_MaterialEntries (root2 : Node) :
    ∀ (mats : List Material),
      (∀ nid ∈ mats.flatMap MaterialRegistry, (root2.FindMeshNode nid).isSome) →
      (mats.flatMap (MaterialEntries root2)).length = (mats.flatMap MaterialRegistry).length := by
  intro mats
  induction mats with
  | nil => intro _; rfl
  | cons m t ih =>
    intro h
    rw [List.flatMap_cons, List.flatMap_cons, List.length_append, List.length_append]
    rw [List.flatMap_cons] at h
    rw [length_MaterialEntries root2 m
      (fun nid hn => h nid (List.mem_append.mpr (Or.inl hn)))]
    rw [ih (fun nid hn => h nid (List.mem_append.mpr (Or.inr hn)))]

theorem length_drawList_of_inv (tm : TrigModel) (order : List Nat) (s : Scene)
    (hinv : SceneInv s) (hord : IsValidOrder order s.materials.length) :
    (s.ComputeDrawList tm order).1.length = s.root.MeshNodeIds.length := by
  rw [ComputeDrawList_eq_spec]
  unfold SpecDrawList
  have hperm := (SelectOrder_perm hord).flatMap_right (MaterialEntries (s.root.ApplyTransform tm IdMat))
  rw [hperm.length_eq]
  have hfound : ∀ nid ∈ s.materials.flatMap MaterialRegistry,
      ((s.root.ApplyTransform tm IdMat).FindMeshNode nid).isSome := by
    intro nid hn
    have hmem : nid ∈ s.root.MeshNodeIds := hinv.mem_iff.mp hn
    rw [← MeshNodeIds_ApplyTransform tm s.root IdMat] at hmem
    exact FindMeshNode_isSome_of_mem _ hmem
  rw [length_flatMap_MaterialEntries _ _ hfound]
  exact hinv.length_eq

/-- C7 (amended): for every scene built through the public API **with
fewer than 2^31 identifier allocations in total** (so the 32-bit
allocator never wraps and no manager key is ever reused) and every
admissible iteration order of the material map, the number of entries
returned by ComputeDrawList equals the total count of MeshNode instances
in the tree under Root — every MeshNode registers itself with its
MaterialInstance at construction and each registered reference yields
exactly one draw-list entry.  Once the counter wraps, CreateMaterial can
reuse a map key and overwrite an existing material together with its
registered references, and the equality fails, see the counterexample. -/
theorem claim_C7 (ops : List Op) (tm : TrigModel) (order : List Nat)
    (hlen : ops.length + 1 < 2147483648)
    (hord : IsValidOrder order (Scene.ApplyOps Scene0 ops).materials.length) :
    ((Scene.ApplyOps Scene0 ops).ComputeDrawList tm order).1.length
      = (Scene.ApplyOps Scene0 ops).root.MeshNodeIds.length :=
  length_drawList_of_inv tm order _
    ((ApplyOps_good ops Scene0 (by show 1 + ops.length < 2147483648; omega)
      MatIdsLe_Scene0 SceneInv_Scene0).2.1) hord

/-- Witness for C7 at a one-mesh-node scene. -/
theorem claim_C7_witness :
    (WitOps.length + 1 < 2147483648
      ∧ IsValidOrder [0] (Scene.ApplyOps Scene0 WitOps).materials.length)
    ∧ ((Scene.ApplyOps Scene0 WitOps).ComputeDrawList TmTriv [0]).1.length
        = (Scene.ApplyOps Scene0 WitOps).root.MeshNodeIds.length := by
  refine ⟨⟨by decide, by unfold IsValidOrder; decide⟩,
    claim_C7 WitOps TmTriv [0] (by decide) (by unfold IsValidOrder; decide)⟩

theorem ApplyOps_append : ∀ (l1 l2 : List Op) (s : Scene),
    Scene.ApplyOps s (l1 ++ l2) = Scene.ApplyOps (Scene.ApplyOps s l1) l2 := by
  intro l1
  induction l1 with
  | nil =>
    intro l2 s
    rw [List.nil_append, Scene.ApplyOps]
  | cons op t ih =>
    intro l2 s
    rw [List.cons_append, Scene.ApplyOps, Scene.ApplyOps, ih]

theorem ApplyOps_replicate_createMesh (box : AABB) (v : MeshVertices) (ix : MeshIndices) :
    ∀ (n : Nat) (s : Scene), s.counter < 4294967296 →
      (Scene.ApplyOps s (List.replicate n (Op.createMesh box v ix))).materials = s.materials
      ∧ (Scene.ApplyOps s (List.replicate n (Op.createMesh box v ix))).root = s.root
      ∧ (Scene.ApplyOps s (List.replicate n (Op.createMesh box v ix))).counter
          = (s.counter + n) % 4294967296 := by
  intro n
  induction n with
  | zero =>
    intro s hs
    rw [List.replicate_zero, Scene.ApplyOps]
    refine ⟨rfl, rfl, ?_⟩
    rw [Nat.add_zero, Nat.mod_eq_of_lt hs]
  | succ n ih =>
    intro s hs
    rw [List.replicate_succ, Scene.ApplyOps]
    have h1 : (s.ApplyOp (Op.createMesh box v ix)).1.materials = s.materials := rfl
    have h2 : (s.ApplyOp (Op.createMesh box v ix)).1.root = s.root := rfl
    have h3 : (s.ApplyOp (Op.createMesh box v ix)).1.counter
        = (s.counter + 1) % 4294967296 := rfl
    have hlt : (s.ApplyOp (Op.createMesh box v ix)).1.counter < 4294967296 := by
      rw [h3]
      exact Nat.mod_lt _ (by omega)
    obtain ⟨ha, hb, hc⟩ := ih _ hlt
    refine ⟨by rw [ha, h1], by rw [hb, h2], ?_⟩
    rw [hc, h3]
    omega

theorem ApplyOp_createMaterial_materials (s : Scene) :
    (s.ApplyOp Op.createMaterial).1.materials
      = StoreMaterial s.materials ⟨⟨ToSigned ((s.counter + 1) % 4294967296)⟩, none, []⟩ := rfl

theorem ApplyOp_createMaterial_root (s : Scene) :
    (s.ApplyOp Op.createMaterial).1.root = s.root := rfl

/-- C7 counterexample: in the history `C7CexOps` the 32-bit allocator
wraps, the final CreateMaterial reuses map key 2 and overwrites the first
material together with its instance and its registered MeshNode
reference; the MeshNode is still in the tree, so the draw list has 0
entries while the tree holds 1 MeshNode. -/
theorem claim_C7_counterexample :
    IsValidOrder [0] (Scene.ApplyOps Scene0 C7CexOps).materials.length
    ∧ ((Scene.ApplyOps Scene0 C7CexOps).ComputeDrawList TmTriv [0]).1.length
        ≠ (Scene.ApplyOps Scene0 C7CexOps).root.MeshNodeIds.length := by
  have hsplit : Scene.ApplyOps Scene0 C7CexOps
      = Scene.ApplyOps
          (Scene.ApplyOps (Scene.ApplyOps Scene0 C7CexStart)
            (List.replicate 4294967292
              (Op.createMesh ⟨⟨0, 0, 0⟩, ⟨1, 1, 1⟩⟩ ⟨"p", 12, 3, 36⟩ ⟨"u16", 2, 3, 6⟩)))
          [Op.createMaterial] := by
    rw [show C7CexOps
        = (C7CexStart
            ++ List.replicate 4294967292
              (Op.createMesh ⟨⟨0, 0, 0⟩, ⟨1, 1, 1⟩⟩ ⟨"p", 12, 3, 36⟩ ⟨"u16", 2, 3, 6⟩))
            ++ [Op.createMaterial] from rfl,
      ApplyOps_append, ApplyOps_append]
  have hs1 : Scene.ApplyOps Scene0 C7CexStart
      = { root := Node.root ⟨1⟩ none [Node.mesh ⟨5⟩ none ⟨4⟩ ⟨3⟩ IdMat],
          materials := [⟨⟨2⟩, none, [⟨⟨3⟩, none, [⟨5⟩]⟩]⟩],
          meshes := [⟨⟨4⟩, none, ⟨⟨0, 0, 0⟩, ⟨1, 1, 1⟩⟩, ⟨"p", 12, 3, 36⟩, ⟨"u16", 2, 3, 6⟩⟩],
          counter := 5 } := rfl
  obtain ⟨hm2, hr2, hc2⟩ := ApplyOps_replicate_createMesh
    ⟨⟨0, 0, 0⟩, ⟨1, 1, 1⟩⟩ ⟨"p", 12, 3, 36⟩ ⟨"u16", 2, 3, 6⟩ 4294967292
    (Scene.ApplyOps Scene0 C7CexStart) (by rw [hs1]; decide)
  have hc2' : (Scene.ApplyOps (Scene.ApplyOps Scene0 C7CexStart)
      (List.replicate 4294967292
        (Op.createMesh ⟨⟨0, 0, 0⟩, ⟨1, 1, 1⟩⟩ ⟨"p", 12, 3, 36⟩ ⟨"u16", 2, 3, 6⟩))).counter
      = 1 := by
    rw [hc2, hs1]
    decide
  have hm2' : (Scene.ApplyOps (Scene.ApplyOps Scene0 C7CexStart)
      (List.replicate 4294967292
        (Op.createMesh ⟨⟨0, 0, 0⟩, ⟨1, 1, 1⟩⟩ ⟨"p", 12, 3, 36⟩ ⟨"u16", 2, 3, 6⟩))).materials
      = [⟨⟨2⟩, none, [⟨⟨3⟩, none, [⟨5⟩]⟩]⟩] := by
    rw [hm2, hs1]
  have hr2' : (Scene.ApplyOps (Scene.ApplyOps Scene0 C7CexStart)
      (List.replicate 4294967292
        (Op.createMesh ⟨⟨0, 0, 0⟩, ⟨1, 1, 1⟩⟩ ⟨"p", 12, 3, 36⟩ ⟨"u16", 2, 3, 6⟩))).root
      = Node.root ⟨1⟩ none [Node.mesh ⟨5⟩ none ⟨4⟩ ⟨3⟩ IdMat] := by
    rw [hr2, hs1]
  have hfin : ∀ s : Scene, Scene.ApplyOps s [Op.createMaterial] = (s.ApplyOp Op.createMaterial).1 := by
    intro s
    rw [Scene.ApplyOps, Scene.ApplyOps]
  have hmat3 : ((Scene.ApplyOps (Scene.ApplyOps Scene0 C7CexStart)
      (List.replicate 4294967292
        (Op.createMesh ⟨⟨0, 0, 0⟩, ⟨1, 1, 1⟩⟩ ⟨"p", 12, 3, 36⟩ ⟨"u16", 2, 3, 6⟩))).ApplyOp
        Op.createMaterial).1.materials
      = [⟨⟨2⟩, none, []⟩] := by
    rw [ApplyOp_createMaterial_materials, hm2', hc2']
    decide
  have hroot3 : ((Scene.ApplyOps (Scene.ApplyOps Scene0 C7CexStart)
      (List.replicate 4294967292
        (Op.createMesh ⟨⟨0, 0, 0⟩, ⟨1, 1, 1⟩⟩ ⟨"p", 12, 3, 36⟩ ⟨"u16", 2, 3, 6⟩))).ApplyOp
        Op.createMaterial).1.root
      = Node.root ⟨1⟩ none [Node.mesh ⟨5⟩ none ⟨4⟩ ⟨3⟩ IdMat] := by
    rw [ApplyOp_createMaterial_root]
    exact hr2'
  constructor
  · rw [hsplit, hfin, hmat3]
    unfold IsValidOrder
    decide
  · rw [hsplit, hfin]
    have hdl : (((Scene.ApplyOps (Scene.ApplyOps Scene0 C7CexStart)
        (List.replicate 4294967292
          (Op.createMesh ⟨⟨0, 0, 0⟩, ⟨1, 1, 1⟩⟩ ⟨"p", 12, 3, 36⟩ ⟨"u16", 2, 3, 6⟩))).ApplyOp
          Op.createMaterial).1.ComputeDrawList TmTriv [0]).1 = [] := by
      rw [ComputeDrawList_eq_spec]
      simp only [SpecDrawList]
      rw [hmat3]
      rfl
    have htree : ((Scene.ApplyOps (Scene.ApplyOps Scene0 C7CexStart)
        (List.replicate 4294967292
          (Op.createMesh ⟨⟨0, 0, 0⟩, ⟨1, 1, 1⟩⟩ ⟨"p", 12, 3, 36⟩ ⟨"u16", 2, 3, 6⟩))).ApplyOp
          Op.createMaterial).1.root.MeshNodeIds = [⟨5⟩] := by
      rw [hroot3]
      rfl
    rw [hdl, htree]
    decide

theorem MinF_eq_min (a b : Flt) : MinF a b = min a b := by
  unfold MinF
  by_cases h : b < a
  · rw [if_pos h, min_eq_right (le_of_lt h)]
  · rw [if_neg h, min_eq_left (le_of_not_lt h)]

theorem MaxF_eq_max (a b : Flt) : MaxF a b = max a b := by
  unfold MaxF
  by_cases h : a < b
  · rw [if_pos h, max_eq_right (le_of_lt h)]
  · rw [if_neg h, max_eq_left (le_of_not_lt h)]

theorem SceneC6_children_ne :
    SceneC6.root.GetChildren ≠ [] := by
  show ¬ (Node.root ⟨1⟩ none [.translate ⟨5⟩ none ⟨0, 0, 0⟩
    [.rotate ⟨6⟩ none ⟨0, 0, 1⟩ 0 [.scale ⟨7⟩ none 2
      [.mesh ⟨8⟩ none ⟨2⟩ ⟨4⟩ IdMat]]]]).GetChildren = []
  simp [Node.GetChildren]

theorem SceneC6_aabb (tm : TrigModel)
    (hc : tm.cos 0 = 1) (hs : tm.sin 0 = 0) (hi : tm.invSqrt 1 = 1) :
    (SceneC6.ComputeAxisAlignedBoundingBox tm [0]).1 = ⟨⟨-2, -2, -2⟩, ⟨2, 2, 2⟩⟩ := by
  have hroot2 : SceneC6.root.ApplyTransform tm IdMat
      = .root ⟨1⟩ none [.translate ⟨5⟩ none ⟨0, 0, 0⟩
          [.rotate ⟨6⟩ none ⟨0, 0, 1⟩ 0 [.scale ⟨7⟩ none 2
            [.mesh ⟨8⟩ none ⟨2⟩ ⟨4⟩ ⟨⟨2,0,0,0⟩,⟨0,2,0,0⟩,⟨0,0,2,0⟩,⟨0,0,0,1⟩⟩]]]] := by
    have hrot : RotateMat tm 0 ⟨0, 0, 1⟩ = IdMat := by
      unfold RotateMat Normalize3 Dot3 IdMat
      rw [show ((0:Flt) * 0 + 0 * 0 + 1 * 1) = 1 by norm_num, hc, hs, hi]
      simp only [Mat4.mk.injEq, Vec4.mk.injEq]
      norm_num
    show (Node.root ⟨1⟩ none [.translate ⟨5⟩ none ⟨0, 0, 0⟩
        [.rotate ⟨6⟩ none ⟨0, 0, 1⟩ 0 [.scale ⟨7⟩ none 2
          [.mesh ⟨8⟩ none ⟨2⟩ ⟨4⟩ IdMat]]]]).ApplyTransform tm IdMat = _
    simp only [Node.ApplyTransform, Node.ApplyTransformList, hrot]
    simp only [Node.root.injEq, Node.translate.injEq, Node.rotate.injEq, Node.scale.injEq,
      Node.mesh.injEq, List.cons.injEq, Mat4.mk.injEq, Vec4.mk.injEq, Mat4.mul, Mat4.mulVec,
      Vec4.smul, Vec4.add, TranslateMat, ScaleMat, IdMat]
    norm_num
  rw [ComputeAABB_eq_spec tm [0] SceneC6 SceneC6_children_ne]
  unfold SpecBoxList
  rw [hroot2]
  rw [show SceneC6.materials = [⟨⟨3⟩, none, [⟨⟨4⟩, none, [⟨8⟩]⟩]⟩] from rfl,
    show SceneC6.meshes
      = [⟨⟨2⟩, none, ⟨⟨-1, -1, -1⟩, ⟨1, 1, 1⟩⟩, ⟨"pn", 24, 3, 72⟩, ⟨"u16", 2, 3, 6⟩⟩] from rfl]
  simp only [SelectOrder, List.filterMap_cons, List.filterMap_nil, List.getElem?_cons_zero,
    List.flatMap_cons, List.flatMap_nil, List.append_nil, BoxOf, Node.FindMeshNode,
    Node.FindMeshNodeList, LookupMesh, List.find?, List.foldl_cons, List.foldl_nil]
  norm_num
  unfold FoldCorners Mat4.mulVec Vec4.smul Vec4.add StartBox FLT_MAX FLT_MIN
  simp only [MinF_eq_min, MaxF_eq_max, AABB.mk.injEq, Float3.mk.injEq]
  norm_num

/-- C6: for every Scene whose root has at least one child,
ComputeAxisAlignedBoundingBox refreshes all world transforms and then
folds, for every registered MeshNode with a mesh, exactly the mesh's
transformed local min corner and max corner (two points, not all eight
box corners) into a running component-wise min/max started at the
FLT_MAX/FLT_MIN sentinel, and returns that box; in particular for the
tree Root → Translate(0,0,0) → Rotate(axis=(0,0,1), angle=0) → Scale(2) →
MeshNode with local box {(-1,-1,-1),(1,1,1)} the result is
{(-2,-2,-2),(2,2,2)}. -/
theorem claim_C6 :
    (∀ (tm : TrigModel) (order : List Nat) (s : Scene), s.root.GetChildren ≠ [] →
      (s.ComputeAxisAlignedBoundingBox tm order).1
        = List.foldl (fun o (p : Mat4 × AABB) => FoldCorners o p.1 p.2) StartBox
            (SpecBoxList tm order s))
    ∧ (∀ (tm : TrigModel) (order : List Nat),
      tm.cos 0 = 1 → tm.sin 0 = 0 → tm.invSqrt 1 = 1 →
      IsValidOrder order SceneC6.materials.length →
      (SceneC6.ComputeAxisAlignedBoundingBox tm order).1 = ⟨⟨-2, -2, -2⟩, ⟨2, 2, 2⟩⟩) := by
  refine ⟨ComputeAABB_eq_spec, fun tm order hc hs hi hord => ?_⟩
  unfold IsValidOrder at hord
  rw [show SceneC6.materials.length = 1 from rfl,
    show List.range 1 = [0] from rfl] at hord
  rw [List.perm_singleton.mp hord]
  exact SceneC6_aabb tm hc hs hi

/-- Witness for C6 at the concrete example scene and the trivial trig
model. -/
theorem claim_C6_witness :
    (SceneC6.root.GetChildren ≠ []
      ∧ (SceneC6.ComputeAxisAlignedBoundingBox TmTriv [0]).1
          = List.foldl (fun o (p : Mat4 × AABB) => FoldCorners o p.1 p.2) StartBox
              (SpecBoxList TmTriv [0] SceneC6))
    ∧ (TmTriv.cos 0 = 1 ∧ TmTriv.sin 0 = 0 ∧ TmTriv.invSqrt 1 = 1
      ∧ IsValidOrder [0] SceneC6.materials.length
      ∧ (SceneC6.ComputeAxisAlignedBoundingBox TmTriv [0]).1 = ⟨⟨-2, -2, -2⟩, ⟨2, 2, 2⟩⟩) := by
  have hord : IsValidOrder [0] SceneC6.materials.length := by
    unfold IsValidOrder
    decide
  exact ⟨⟨SceneC6_children_ne, claim_C6.1 TmTriv [0] SceneC6 SceneC6_children_ne⟩,
    rfl, rfl, rfl, hord, claim_C6.2 TmTriv [0] rfl rfl rfl hord⟩
